import Mathlib

/-!
Shallow embedding of the double-entry accounting engine in
`backend/models/accountingModel.js` (class `AccountingModel`), backed by the
PostgreSQL schema of `backend/database/init-pg.js` and the transaction wrapper
of `backend/database/db.js`.

Modelling conventions:
* JavaScript strings are modelled as `Str := List Char` so that every string
  operation used by the source (split, includes, padStart, trim, length,
  lexicographic comparison) is an executable structural recursion.
* JavaScript numbers holding money are modelled as `ℚ` (the store column is
  `DECIMAL(15,2)`; the spec's store contract promises fixed-precision decimal
  arithmetic).
* A possibly-missing / non-numeric input field is an `Option`.
* Each store mutation runs inside `db.js`'s `transaction` wrapper
  (BEGIN … COMMIT / ROLLBACK on any throw), so an operation is a function
  `DBState → … → Except Err (DBState × result)`: an `.error` outcome commits
  nothing and the caller keeps the pre-call state.
* `getPakistanTime().timestamp` is an ambient clock; operations take the
  current timestamp as an explicit `now : Str` argument.
* SQL `DATE` comparisons are modelled by lexicographic comparison of the
  `YYYY-MM-DD` strings the engine writes (identical order on valid dates).
-/

namespace Accounting

/-- JavaScript strings, as lists of characters. -/
abbrev Str := List Char

/-- Characters removed by JavaScript `String.prototype.trim` (the whitespace
forms that occur in this code base). -/
def isSpaceChar (c : Char) : Bool := c = ' ' || c = '\t' || c = '\n' || c = '\r'

/-- JavaScript `s.trim()`. -/
def trimStr (l : Str) : Str :=
  ((l.dropWhile isSpaceChar).reverse.dropWhile isSpaceChar).reverse

/-- JavaScript `s.includes(c)` for a single-character needle. -/
def containsChar (l : Str) (c : Char) : Bool := l.any (fun x => x = c)

/-- JavaScript `s.split(c)` for a single-character separator. -/
def splitOnChar (c : Char) (l : Str) : List Str :=
  match l with
  | [] => [[]]
  | x :: xs =>
    let rest := splitOnChar c xs
    if x = c then [] :: rest
    else
      match rest with
      | [] => [[x]]
      | r :: rs => (x :: r) :: rs

/-- JavaScript `s.padStart(2, c0)` with a zero pad character. -/
def padStart2 (l : Str) : Str :=
  if l.length < 2 then List.replicate (2 - l.length) '0' ++ l else l

/-- Character comparison by code point, as JavaScript `<` on strings uses. -/
def charLtb (a b : Char) : Bool := a.toNat < b.toNat

/-- Lexicographic strict order on strings; used to model SQL `DATE`
comparisons on the `YYYY-MM-DD` strings the engine stores. -/
def strLtb : Str → Str → Bool
  | [], [] => false
  | [], _ :: _ => true
  | _ :: _, [] => false
  | a :: as, b :: bs => if a = b then strLtb as bs else charLtb a b

/-- Non-strict companion of `strLtb` (SQL `BETWEEN` bounds are inclusive). -/
def strLeb (a b : Str) : Bool := strLtb a b || decide (a = b)

/-- Decimal digits of a natural number (used to model JavaScript number
formatting in error messages). -/
def natToStr (n : Nat) : Str := Nat.toDigits 10 n

/-- JavaScript `x.toFixed(2)` for a non-negative rational. -/
def toFixed2Abs (q : ℚ) : Str :=
  let cents := (⌊q * 100 + 1 / 2⌋).toNat
  natToStr (cents / 100) ++ ['.'] ++ padStart2 (natToStr (cents % 100))

/-- JavaScript `x.toFixed(2)`. -/
def toFixed2 (q : ℚ) : Str :=
  if q < 0 then '-' :: toFixed2Abs (-q) else toFixed2Abs q

/-- The literal `'Debit'`. -/
def DebitS : Str := "Debit".data

/-- The literal `'Credit'`. -/
def CreditS : Str := "Credit".data

/-- `AccountingModel.convertToYYYYMMDD`.  A falsy (empty) input yields `null`;
a three-part `d/m/y` input is rearranged to `y-m-d` with `padStart(2,'0')`
on day and month; every other input is returned unchanged (the two remaining
source branches — the dash test and the final fallback — both return the
input as is). -/
def convertToYYYYMMDD (dateStr : Str) : Option Str :=
  if dateStr = [] then none
  else if containsChar dateStr '/' ∧ (splitOnChar '/' dateStr).length = 3 then
    let parts := splitOnChar '/' dateStr
    some ((parts.getD 2 []) ++ ['-'] ++ padStart2 (parts.getD 1 []) ++ ['-'] ++
      padStart2 (parts.getD 0 []))
  else some dateStr

/-- `AccountingModel.convertToDDMMYYYY`. -/
def convertToDDMMYYYY (dateStr : Str) : Str :=
  if dateStr = [] then []
  else if containsChar dateStr '-' ∧ (splitOnChar '-' dateStr).length = 3 then
    let parts := splitOnChar '-' dateStr
    (parts.getD 2 []) ++ ['/'] ++ (parts.getD 1 []) ++ ['/'] ++ (parts.getD 0 [])
  else dateStr

/-- Errors thrown by the engine, one constructor per distinct `throw` site
relevant to the modelled operations; `Err.message` recovers the source's
message strings. -/
inductive Err where
  | dateRequired
  | invalidDateFormat
  | descriptionRequired
  | descriptionTooLong
  | needTwoEntries
  | entryAccountIdRequired (i : Nat)
  | entryAmountRequired (i : Nat)
  | entryAmountNotPositive (i : Nat)
  | entryTypeInvalid (i : Nat)
  | imbalance (totalDebits totalCredits : ℚ)
  | needTwoDistinctAccounts
  | noJournalEntries
  | accountNotFound
  | accountNotFoundOrInactive
  | transactionNotFound
  | noExistingTransactionFound
  | dateAndDescriptionRequired
  | fullUpdateFieldsRequired
  | storeRejected
deriving Repr, DecidableEq

deriving instance DecidableEq for Except

/-- The message text each `throw new Error(...)` site carries in the source
(`storeRejected` stands for a constraint violation surfaced by the store). -/
def Err.message : Err → Str
  | .dateRequired => "Transaction date is required".data
  | .invalidDateFormat => "Invalid date format. Use dd/mm/yyyy".data
  | .descriptionRequired => "Transaction description is required".data
  | .descriptionTooLong => "Description must be less than 200 characters".data
  | .needTwoEntries =>
      "Transaction must have at least two journal entries (double-entry)".data
  | .entryAccountIdRequired i =>
      "Entry ".data ++ natToStr i ++ ": Account ID is required".data
  | .entryAmountRequired i =>
      "Entry ".data ++ natToStr i ++ ": Amount is required".data
  | .entryAmountNotPositive i =>
      "Entry ".data ++ natToStr i ++ ": Amount must be a positive number".data
  | .entryTypeInvalid i =>
      "Entry ".data ++ natToStr i ++ ": Entry type must be Debit or Credit".data
  | .imbalance td tc =>
      "Debits (".data ++ toFixed2 td ++ ") do not equal Credits (".data ++
        toFixed2 tc ++ ")".data
  | .needTwoDistinctAccounts =>
      "Transaction must involve at least two different accounts".data
  | .noJournalEntries => "No journal entries provided".data
  | .accountNotFound => "Account not found".data
  | .accountNotFoundOrInactive => "Account not found or inactive".data
  | .transactionNotFound => "Transaction not found".data
  | .noExistingTransactionFound => "No existing transaction found".data
  | .dateAndDescriptionRequired =>
      "Transaction date and description are required".data
  | .fullUpdateFieldsRequired =>
      "Date, description, and journal entries are required for full update".data
  | .storeRejected => "Database error".data

/-- A row of the `accounts` table (schema of `init-pg.js`): `balance` is a
`DECIMAL(15,2)` cache maintained by the posting engine.  `created_at` and the
purely presentational formatted fields are omitted. -/
structure Account where
  id : Nat
  account_code : Str
  account_name : Str
  account_type : Str
  account_subtype : Option Str
  normal_balance : Str
  balance : ℚ
  is_active : Bool
  updated_at : Str
deriving Repr, DecidableEq

/-- A row of the `transactions` table. -/
structure Transaction where
  id : Nat
  transaction_number : Nat
  transaction_date : Str
  description : Str
  reference : Option Str
  updated_at : Str
deriving Repr, DecidableEq

/-- A row of the `journal_entries` table. -/
structure JournalEntry where
  id : Nat
  transaction_id : Nat
  account_id : Nat
  amount : ℚ
  entry_type : Str
deriving Repr, DecidableEq

/-- The relational store: the three tables plus the `SERIAL` counters that
assign fresh row ids. -/
structure DBState where
  accounts : List Account
  transactions : List Transaction
  journal : List JournalEntry
  nextTransactionId : Nat
  nextEntryId : Nat
deriving Repr, DecidableEq

/-- One element of the `entries` array of a draft posting, as received from
the HTTP layer: `account_id` may be missing (or the falsy `0`), `amount` may
be missing or non-numeric (`none`), `entry_type` is an arbitrary string. -/
structure EntryInput where
  account_id : Option Nat
  amount : Option ℚ
  entry_type : Str
deriving Repr, DecidableEq

/-- A draft transaction, the argument of `createTransaction`. -/
structure TxnDraft where
  date : Str
  description : Str
  reference : Option Str
  entries : List EntryInput
deriving Repr, DecidableEq

/-- The value `validateTransaction` returns on success. -/
structure ValidationResult where
  dbDate : Str
  totalDebits : ℚ
  totalCredits : ℚ
deriving Repr, DecidableEq

/-- The entry loop of `AccountingModel.validateTransaction` (`entries.forEach`
with 1-based indices in its messages): checks each entry and accumulates
`totalDebits`, `totalCredits` and the list of referenced account ids. -/
def scanEntries : List EntryInput → Nat → ℚ × ℚ × List Nat →
    Except Err (ℚ × ℚ × List Nat)
  | [], _, acc => .ok acc
  | e :: rest, i, (td, tc, ids) =>
    if e.account_id.getD 0 = 0 then .error (.entryAccountIdRequired (i + 1))
    else
      match e.amount with
      | none => .error (.entryAmountRequired (i + 1))
      | some a =>
        if a ≤ 0 then .error (.entryAmountNotPositive (i + 1))
        else if ¬(e.entry_type = DebitS ∨ e.entry_type = CreditS) then
          .error (.entryTypeInvalid (i + 1))
        else
          scanEntries rest (i + 1)
            (if e.entry_type = DebitS then td + a else td,
             if e.entry_type = DebitS then tc else tc + a,
             ids ++ [e.account_id.getD 0])

/-- `AccountingModel.validateTransaction`: the pure validator run before any
write.  Imbalance is rejected only when `|debits − credits| > 0.01`. -/
def validateTransaction (t : TxnDraft) : Except Err ValidationResult :=
  if trimStr t.date = [] then .error .dateRequired
  else
    match convertToYYYYMMDD t.date with
    | none => .error .invalidDateFormat
    | some dbDate =>
      if trimStr t.description = [] then .error .descriptionRequired
      else if 200 < t.description.length then .error .descriptionTooLong
      else if t.entries.length < 2 then .error .needTwoEntries
      else
        match scanEntries t.entries 0 (0, 0, []) with
        | .error e => .error e
        | .ok (td, tc, ids) =>
          if 1 / 100 < |td - tc| then .error (.imbalance td tc)
          else if ids.dedup.length < 2 then .error .needTwoDistinctAccounts
          else .ok ⟨dbDate, td, tc⟩

/-- The signed balance effect of one entry, exactly as computed by
`_updateAccountBalanceInternal` (and again, verbatim, by the ledger's
per-line `balanceEffect`): `+amount` on the account's normal side, `−amount`
on the other side. -/
def balanceChangeFor (normalBalance entryType : Str) (amount : ℚ) : ℚ :=
  if normalBalance = DebitS then
    (if entryType = DebitS then amount else -amount)
  else
    (if entryType = CreditS then amount else -amount)

/-- The map underlying the SQL
`UPDATE accounts SET balance = balance + $1, updated_at = $2 WHERE id = $3`. -/
def applyDelta (accs : List Account) (accountId : Nat) (delta : ℚ)
    (now : Str) : List Account :=
  accs.map (fun a =>
    if a.id = accountId then
      { a with balance := a.balance + delta, updated_at := now }
    else a)

/-- `AccountingModel._updateAccountBalanceInternal`: look up the account's
`normal_balance` (by id only — the query does not test `is_active`), compute
the signed change and increment the cached balance at the store. -/
def updateAccountBalanceInternal (s : DBState) (accountId : Nat) (amount : ℚ)
    (entryType : Str) (now : Str) : Except Err DBState :=
  match s.accounts.find? (fun a => a.id == accountId) with
  | none => .error .accountNotFound
  | some account =>
    let balanceChange := balanceChangeFor account.normal_balance entryType amount
    .ok { s with accounts := applyDelta s.accounts accountId balanceChange now }

/-- `SELECT COALESCE(MAX(transaction_number), 0)` over a transaction list. -/
def maxTransactionNumber (ts : List Transaction) : Nat :=
  ts.foldr (fun t m => max t.transaction_number m) 0

/-- `AccountingModel.getNextTransactionNumber`:
`COALESCE(MAX(transaction_number), 0) + 1`. -/
def getNextTransactionNumber (s : DBState) : Nat :=
  maxTransactionNumber s.transactions + 1

/-- The entry-insertion loop shared by `createTransaction` and
`_updateFullTransaction`: insert each `journal_entries` row (the raw draft
values pass through to the store, which rejects a missing account id or a
non-numeric amount via its `NOT NULL`/type constraints), then adjust the
owning account's cached balance. -/
def insertJournalEntries (s : DBState) (transactionId : Nat)
    (entries : List EntryInput) (now : Str) : Except Err DBState :=
  match entries with
  | [] => .ok s
  | e :: rest =>
    match e.account_id with
    | none => .error .storeRejected
    | some accountId =>
      match e.amount with
      | none => .error .storeRejected
      | some a =>
        let s1 : DBState :=
          { s with
            journal := s.journal ++
              [{ id := s.nextEntryId, transaction_id := transactionId,
                 account_id := accountId, amount := a,
                 entry_type := e.entry_type }],
            nextEntryId := s.nextEntryId + 1 }
        match updateAccountBalanceInternal s1 accountId a e.entry_type now with
        | .error err => .error err
        | .ok s2 => insertJournalEntries s2 transactionId rest now

/-- The scalar fields `createTransaction` returns. -/
structure CreateResult where
  transactionId : Nat
  transactionNumber : Nat
  totalDebits : ℚ
  totalCredits : ℚ
  date_display : Str
deriving Repr, DecidableEq

/-- `AccountingModel.createTransaction`: validate, then — inside one store
transaction — allocate `MAX(transaction_number)+1`, insert the transaction
row, and insert every journal entry while adjusting cached balances.  An
`.error` result models `ROLLBACK`: nothing of the unit is committed. -/
def createTransaction (s : DBState) (t : TxnDraft) (now : Str) :
    Except Err (DBState × CreateResult) :=
  match validateTransaction t with
  | .error e => .error e
  | .ok v =>
    let nextTransactionNumber := getNextTransactionNumber s
    let transactionId := s.nextTransactionId
    let s1 : DBState :=
      { s with
        transactions := s.transactions ++
          [{ id := transactionId, transaction_number := nextTransactionNumber,
             transaction_date := v.dbDate, description := t.description,
             reference := some (t.reference.getD []), updated_at := now }],
        nextTransactionId := s.nextTransactionId + 1 }
    if t.entries = [] then .error .noJournalEntries
    else
      match insertJournalEntries s1 transactionId t.entries now with
      | .error err => .error err
      | .ok s2 =>
        .ok (s2,
          { transactionId := transactionId,
            transactionNumber := nextTransactionNumber,
            totalDebits := v.totalDebits, totalCredits := v.totalCredits,
            date_display := convertToDDMMYYYY v.dbDate })

/-- `entry_type === 'Debit' ? 'Credit' : 'Debit'`. -/
def reverseEntryType (t : Str) : Str := if t = DebitS then CreditS else DebitS

/-- The reversal loop shared by `deleteTransaction` and
`_updateFullTransaction`: re-apply every existing entry with the opposite
entry type against the cached balances. -/
def reverseEntries (s : DBState) (entries : List JournalEntry) (now : Str) :
    Except Err DBState :=
  match entries with
  | [] => .ok s
  | e :: rest =>
    match updateAccountBalanceInternal s e.account_id e.amount
        (reverseEntryType e.entry_type) now with
    | .error err => .error err
    | .ok s1 => reverseEntries s1 rest now

/-- `AccountingModel.deleteTransaction`: reverse every entry's balance
effect, then delete the entries and the transaction row, atomically. -/
def deleteTransaction (s : DBState) (transactionId : Nat) (now : Str) :
    Except Err (DBState × Nat) :=
  let entries := s.journal.filter (fun e => e.transaction_id == transactionId)
  if entries = [] then .error .transactionNotFound
  else
    match reverseEntries s entries now with
    | .error err => .error err
    | .ok s1 =>
      .ok ({ s1 with
              journal := s1.journal.filter
                (fun e => !(e.transaction_id == transactionId)),
              transactions := s1.transactions.filter
                (fun t => !(t.id == transactionId)) },
           entries.length)

/-- The update payload of `updateTransaction`: a full edit carries an
`entries` array, a basic edit does not. -/
structure UpdateData where
  date : Str
  description : Str
  reference : Option Str
  entries : Option (List EntryInput)
deriving Repr, DecidableEq

/-- The scalar fields `_updateFullTransaction` returns. -/
structure FullUpdateResult where
  transactionId : Nat
  transactionNumber : Nat
  totalDebits : ℚ
  totalCredits : ℚ
  entries_updated : Nat
  old_entries_reversed : Nat
deriving Repr, DecidableEq

/-- Sum of `parseFloat(e.amount)` over draft entries (a reducer in the
source). -/
def sumAmounts (entries : List EntryInput) : ℚ :=
  (entries.map (fun e => e.amount.getD 0)).sum

/-- `AccountingModel._updateFullTransaction`: validate the new draft, then —
atomically — reverse every existing entry's balance effect, delete the old
entries, update the transaction row, insert the new entries and apply their
balance effects. -/
def updateFullTransaction (s : DBState) (transactionId : Nat) (u : UpdateData)
    (now : Str) : Except Err (DBState × FullUpdateResult) :=
  match u.entries with
  | none => .error .fullUpdateFieldsRequired
  | some entries =>
    if u.date = [] ∨ u.description = [] then .error .fullUpdateFieldsRequired
    else
      match convertToYYYYMMDD u.date with
      | none => .error .invalidDateFormat
      | some sqlDate =>
        match validateTransaction
            { date := u.date, description := u.description,
              reference := none, entries := entries } with
        | .error e => .error e
        | .ok _ =>
          let oldEntries :=
            s.journal.filter (fun e => e.transaction_id == transactionId)
          if oldEntries = [] then .error .noExistingTransactionFound
          else
            match reverseEntries s oldEntries now with
            | .error err => .error err
            | .ok s1 =>
              let remaining :=
                s1.journal.filter (fun e => !(e.transaction_id == transactionId))
              let s2 : DBState := { s1 with journal := remaining }
              match s2.transactions.find? (fun t => t.id == transactionId) with
              | none => .error .transactionNotFound
              | some txnRow =>
                let s3 : DBState :=
                  { s2 with transactions := s2.transactions.map (fun t =>
                      if t.id = transactionId then
                        { t with transaction_date := sqlDate,
                                 description := u.description,
                                 reference := some (u.reference.getD []),
                                 updated_at := now }
                      else t) }
                match insertJournalEntries s3 transactionId entries now with
                | .error err => .error err
                | .ok s4 =>
                  .ok (s4,
                    { transactionId := transactionId,
                      transactionNumber := txnRow.transaction_number,
                      totalDebits := sumAmounts
                        (entries.filter (fun e => e.entry_type = DebitS)),
                      totalCredits := sumAmounts
                        (entries.filter (fun e => e.entry_type = CreditS)),
                      entries_updated := entries.length,
                      old_entries_reversed := oldEntries.length })

/-- The basic ("metadata only") branch of `AccountingModel.updateTransaction`:
a single `UPDATE transactions SET transaction_date, description, reference,
updated_at WHERE id = $5` (the raw `reference` is passed through, possibly
null). -/
def updateBasicTransaction (s : DBState) (transactionId : Nat) (u : UpdateData)
    (now : Str) : Except Err DBState :=
  if u.date = [] ∨ u.description = [] then .error .dateAndDescriptionRequired
  else
    match convertToYYYYMMDD u.date with
    | none => .error .invalidDateFormat
    | some sqlDate =>
      match s.transactions.find? (fun t => t.id == transactionId) with
      | none => .error .transactionNotFound
      | some _ =>
        .ok { s with transactions := s.transactions.map (fun t =>
          if t.id = transactionId then
            { t with transaction_date := sqlDate, description := u.description,
                     reference := u.reference, updated_at := now }
          else t) }

/-- `AccountingModel.updateTransaction`: dispatch on the presence of an
`entries` array. -/
def updateTransaction (s : DBState) (transactionId : Nat) (u : UpdateData)
    (now : Str) : Except Err DBState :=
  match u.entries with
  | some _ =>
    match updateFullTransaction s transactionId u now with
    | .error e => .error e
    | .ok (s4, _) => .ok s4
  | none => updateBasicTransaction s transactionId u now

/-- The SQL `CASE` expression shared by the opening-balance query of
`getAccountLedger` and the period reports: four explicit `WHEN` arms over
(`normal_balance`, `entry_type`) and an `ELSE 0`. -/
def sqlSignedCase (normalBalance entryType : Str) (amount : ℚ) : ℚ :=
  if normalBalance = DebitS ∧ entryType = DebitS then amount
  else if normalBalance = DebitS ∧ entryType = CreditS then -amount
  else if normalBalance = CreditS ∧ entryType = CreditS then amount
  else if normalBalance = CreditS ∧ entryType = DebitS then -amount
  else 0

/-- The transaction row an entry joins to (`JOIN transactions t ON
je.transaction_id = t.id`). -/
def entryTransaction (s : DBState) (e : JournalEntry) : Option Transaction :=
  s.transactions.find? (fun t => t.id == e.transaction_id)

/-- The opening-balance query of `getAccountLedger`: signed sum over the
account's entries whose joined transaction is dated strictly before
`startDate`. -/
def openingBalanceQuery (s : DBState) (accountId : Nat) (normalBalance : Str)
    (dbStartDate : Str) : ℚ :=
  ((s.journal.filter (fun e =>
      e.account_id == accountId &&
        match entryTransaction s e with
        | some t => strLtb t.transaction_date dbStartDate
        | none => false)).map
    (fun e => sqlSignedCase normalBalance e.entry_type e.amount)).sum

/-- Whether a joined row falls in `t.transaction_date BETWEEN $3 AND $4`. -/
def inRange (dbStartDate dbEndDate date : Str) : Bool :=
  strLeb dbStartDate date && strLeb date dbEndDate

/-- The in-range join rows of the ledger query, before `ORDER BY`. -/
def ledgerRowsUnsorted (s : DBState) (accountId : Nat)
    (dbStartDate dbEndDate : Str) : List (Transaction × JournalEntry) :=
  s.journal.filterMap (fun e =>
    if e.account_id == accountId then
      match entryTransaction s e with
      | some t =>
        if inRange dbStartDate dbEndDate t.transaction_date then some (t, e)
        else none
      | none => none
    else none)

/-- `ORDER BY t.transaction_date, t.id` as a boolean sort key. -/
def ledgerRowLe (x y : Transaction × JournalEntry) : Bool :=
  strLtb x.1.transaction_date y.1.transaction_date ||
    (decide (x.1.transaction_date = y.1.transaction_date) && x.1.id ≤ y.1.id)

/-- The ledger query's result set in `ORDER BY (transaction_date, id)`
order. -/
def ledgerRows (s : DBState) (accountId : Nat) (dbStartDate dbEndDate : Str) :
    List (Transaction × JournalEntry) :=
  (ledgerRowsUnsorted s accountId dbStartDate dbEndDate).mergeSort ledgerRowLe

/-- One line of the ledger response (presentational fields such as
`other_accounts` and the formatted timestamps are omitted). -/
structure LedgerLine where
  transaction_id : Nat
  transaction_number : Nat
  date : Str
  description : Str
  reference : Str
  entry_type : Str
  amount : ℚ
  balance_effect : ℚ
  running_balance : ℚ
deriving Repr, DecidableEq

/-- The `forEach` fold of `getAccountLedger`: each row's `balanceEffect` is
the same rule as `_updateAccountBalanceInternal`, and the running balance
accumulates from the opening balance. -/
def buildLedgerLines (normalBalance : Str) :
    ℚ → List (Transaction × JournalEntry) → List LedgerLine
  | _, [] => []
  | runningBalance, (t, e) :: rest =>
    let balanceEffect := balanceChangeFor normalBalance e.entry_type e.amount
    let rb := runningBalance + balanceEffect
    { transaction_id := t.id, transaction_number := t.transaction_number,
      date := t.transaction_date, description := t.description,
      reference := t.reference.getD [], entry_type := e.entry_type,
      amount := e.amount, balance_effect := balanceEffect,
      running_balance := rb } :: buildLedgerLines normalBalance rb rest

/-- The final value of the mutable `runningBalance` after the fold; the
source assigns it to `closingBalance`. -/
def ledgerClosing (normalBalance : Str) :
    ℚ → List (Transaction × JournalEntry) → ℚ
  | rb, [] => rb
  | rb, (_, e) :: rest =>
    ledgerClosing normalBalance
      (rb + balanceChangeFor normalBalance e.entry_type e.amount) rest

/-- The `summary` object of the ledger response. -/
structure LedgerSummary where
  total_debits : ℚ
  total_credits : ℚ
  transaction_count : Nat
deriving Repr, DecidableEq

/-- The response of `getAccountLedger`. -/
structure LedgerResult where
  account : Account
  openingBalance : ℚ
  closingBalance : ℚ
  transactions : List LedgerLine
  summary : LedgerSummary
deriving Repr, DecidableEq

/-- `AccountingModel.getAccountLedger`: resolve the active account, compute
the opening balance over entries dated before the range, fold the in-range
rows in `(transaction_date, transaction id)` order into ledger lines with a
running balance, and report the final running balance as the closing
balance. -/
def getAccountLedger (s : DBState) (accountId : Nat)
    (startDate endDate : Str) : Except Err LedgerResult :=
  match convertToYYYYMMDD startDate, convertToYYYYMMDD endDate with
  | some dbStartDate, some dbEndDate =>
    (match s.accounts.find? (fun a => a.id == accountId && a.is_active) with
     | none => .error .accountNotFoundOrInactive
     | some account =>
       let openingBalance :=
         openingBalanceQuery s accountId account.normal_balance dbStartDate
       let rows := ledgerRows s accountId dbStartDate dbEndDate
       let lines := buildLedgerLines account.normal_balance openingBalance rows
       .ok { account := account, openingBalance := openingBalance,
             closingBalance := ledgerClosing account.normal_balance
               openingBalance rows,
             transactions := lines,
             summary :=
               { total_debits := ((lines.filter
                   (fun l => l.entry_type = DebitS)).map (·.amount)).sum,
                 total_credits := ((lines.filter
                   (fun l => l.entry_type = CreditS)).map (·.amount)).sum,
                 transaction_count := lines.length } })
  | _, _ => .error .invalidDateFormat

/-- The `WHERE (t.transaction_date IS NULL OR t.transaction_date BETWEEN $1
AND $2)` filter of the period reports over the rows the outer join produces
for one account's entries: an entry whose transaction is missing joins to a
NULL date and is kept unconditionally (the store's foreign key makes this
case unreachable in practice). -/
def periodKeptEntries (s : DBState) (accountId : Nat)
    (dbStartDate dbEndDate : Str) : List JournalEntry :=
  (s.journal.filter (fun e => e.account_id == accountId)).filter (fun e =>
    match entryTransaction s e with
    | none => true
    | some t => inRange dbStartDate dbEndDate t.transaction_date)

/-- One account's row in a period report, when it has one:  an account with
no journal entries at all survives the outer join as a single NULL row with
`period_balance = 0`; an account whose every joined row is excluded by the
`WHERE` clause disappears from the grouped result; otherwise the kept rows
are summed through the four-way signed `CASE`. -/
def periodBalanceRow (s : DBState) (a : Account)
    (dbStartDate dbEndDate : Str) : Option ℚ :=
  if s.journal.filter (fun e => e.account_id == a.id) = [] then some 0
  else
    let kept := periodKeptEntries s a.id dbStartDate dbEndDate
    if kept = [] then none
    else
      some ((kept.map
        (fun e => sqlSignedCase a.normal_balance e.entry_type e.amount)).sum)

/-- The grouped rows of a period report for the given `account_type`
filter: active accounts of those types, each with its `period_balance`. -/
def periodReportRows (s : DBState) (types : List Str)
    (dbStartDate dbEndDate : Str) : List (Account × ℚ) :=
  s.accounts.filterMap (fun a =>
    if types.contains a.account_type && a.is_active then
      (periodBalanceRow s a dbStartDate dbEndDate).map (fun pb => (a, pb))
    else none)

/-- The response of `getBalanceSheetForPeriod`, keeping each reported
account's `period_balance`. -/
structure BalanceSheetPeriod where
  assets : List (Account × ℚ)
  liabilities : List (Account × ℚ)
  capital : List (Account × ℚ)
  totalAssets : ℚ
  totalLiabilities : ℚ
  totalCapital : ℚ
deriving Repr, DecidableEq

/-- The Capital total's sign convention: Debit-normal capital rows subtract. -/
def capitalTotal (rows : List (Account × ℚ)) : ℚ :=
  rows.foldl (fun sum r =>
    if r.1.normal_balance = DebitS then sum - r.2 else sum + r.2) 0

/-- `AccountingModel.getBalanceSheetForPeriod`: recompute a per-account
`period_balance` from the journal (ignoring the cached `balance`) for active
Asset/Liability/Capital accounts. -/
def getBalanceSheetForPeriod (s : DBState) (startDate endDate : Str) :
    Except Err BalanceSheetPeriod :=
  match convertToYYYYMMDD startDate, convertToYYYYMMDD endDate with
  | some dbStartDate, some dbEndDate =>
    let rows := periodReportRows s
      ["Asset".data, "Liability".data, "Capital".data] dbStartDate dbEndDate
    let assets := rows.filter (fun r => r.1.account_type = "Asset".data)
    let liabilities :=
      rows.filter (fun r => r.1.account_type = "Liability".data)
    let capital := rows.filter (fun r => r.1.account_type = "Capital".data)
    .ok { assets := assets, liabilities := liabilities, capital := capital,
          totalAssets := (assets.map (·.2)).sum,
          totalLiabilities := (liabilities.map (·.2)).sum,
          totalCapital := capitalTotal capital }
  | _, _ => .error .invalidDateFormat

/-- The response of `getIncomeStatementForPeriod`, keeping each reported
account's `period_balance`. -/
structure IncomeStatementPeriod where
  revenue : List (Account × ℚ)
  expenses : List (Account × ℚ)
  totalRevenue : ℚ
  totalExpenses : ℚ
  netIncome : ℚ
deriving Repr, DecidableEq

/-- `AccountingModel.getIncomeStatementForPeriod`: the same journal re-scan
for active Revenue/Expense accounts. -/
def getIncomeStatementForPeriod (s : DBState) (startDate endDate : Str) :
    Except Err IncomeStatementPeriod :=
  match convertToYYYYMMDD startDate, convertToYYYYMMDD endDate with
  | some dbStartDate, some dbEndDate =>
    let rows := periodReportRows s ["Revenue".data, "Expense".data]
      dbStartDate dbEndDate
    let revenue := rows.filter (fun r => r.1.account_type = "Revenue".data)
    let expenses := rows.filter (fun r => r.1.account_type = "Expense".data)
    let totalRevenue := (revenue.map (·.2)).sum
    let totalExpenses := (expenses.map (·.2)).sum
    .ok { revenue := revenue, expenses := expenses,
          totalRevenue := totalRevenue, totalExpenses := totalExpenses,
          netIncome := totalRevenue - totalExpenses }
  | _, _ => .error .invalidDateFormat

/-- A raw `accounts` row as the driver delivers it to `getAccountById`:
PostgreSQL sends `DECIMAL` values as text, so the model carries the result
of `parseFloat` on that text — `none` when it does not parse to a number. -/
structure AccountRow where
  id : Nat
  account_code : Str
  account_name : Str
  account_type : Str
  account_subtype : Option Str
  normal_balance : Str
  balance : Option ℚ
  is_active : Bool
deriving Repr, DecidableEq

/-- The record `getAccountById` returns, with `balance` coerced to a
number. -/
structure AccountView where
  id : Nat
  account_code : Str
  account_name : Str
  account_type : Str
  account_subtype : Option Str
  normal_balance : Str
  balance : ℚ
  is_active : Bool
deriving Repr, DecidableEq

/-- `AccountingModel.getAccountById`: `SELECT * FROM accounts WHERE id = $1
AND is_active = true`, returning `null` on an empty result and otherwise the
row with `balance: parseFloat(row.balance) || 0`. -/
def getAccountById (rows : List AccountRow) (id : Nat) : Option AccountView :=
  match rows.find? (fun r => r.id == id && r.is_active) with
  | none => none
  | some r =>
    some { id := r.id, account_code := r.account_code,
           account_name := r.account_name, account_type := r.account_type,
           account_subtype := r.account_subtype,
           normal_balance := r.normal_balance,
           balance := r.balance.getD 0, is_active := r.is_active }

/-! ## Specification-side definitions

These definitions restate the spec's wording (signed sums over the journal,
schema constraints) to compare with the behaviour of the code above. -/

/-- The spec's signed contribution of one journal entry to its account: the
entry "increases balance when its entry_type matches normal_balance,
decreases otherwise". -/
def claimContribution (normalBalance : Str) (e : JournalEntry) : ℚ :=
  if e.entry_type = normalBalance then e.amount else -e.amount

/-- The spec's signed sum over a journal for the account with id `x` whose
normal balance is `normalBalance`. -/
def signedSumAt (journal : List JournalEntry) (normalBalance : Str)
    (x : Nat) : ℚ :=
  ((journal.filter (fun e => e.account_id == x)).map
    (claimContribution normalBalance)).sum

/-- The spec's balance invariant: every account's cached `balance` equals the
signed sum of its journal entries. -/
def balanceInvariant (s : DBState) : Prop :=
  ∀ a ∈ s.accounts, a.balance = signedSumAt s.journal a.normal_balance a.id

/-- The schema's `CHECK (normal_balance IN ('Debit','Credit'))` constraint
together with the `accounts.id` primary key. -/
def accountsWF (s : DBState) : Prop :=
  (∀ a ∈ s.accounts,
    a.normal_balance = DebitS ∨ a.normal_balance = CreditS) ∧
  (s.accounts.map (·.id)).Nodup

/-- The schema's `CHECK (entry_type IN ('Debit','Credit'))` constraint on
`journal_entries`. -/
def journalWF (s : DBState) : Prop :=
  ∀ e ∈ s.journal, e.entry_type = DebitS ∨ e.entry_type = CreditS

/-- The schema's foreign key `journal_entries.transaction_id REFERENCES
transactions(id)`: every entry joins to a transaction row. -/
def noOrphanEntries (s : DBState) : Prop :=
  ∀ e ∈ s.journal, (entryTransaction s e).isSome

/-! ## Toolkit: account lookups under balance updates -/

/-- `SELECT ... FROM accounts WHERE id = x` (first match). -/
def findAcc (accs : List Account) (x : Nat) : Option Account :=
  accs.find? (fun a => a.id == x)

/-- The cached balance of account `x`, when present. -/
def balAt (accs : List Account) (x : Nat) : Option ℚ :=
  (findAcc accs x).map (·.balance)

/-- The `normal_balance` of account `x`, when present. -/
def normalAt (accs : List Account) (x : Nat) : Option Str :=
  (findAcc accs x).map (·.normal_balance)

/-- The `normal_balance` of account `x`, defaulted. -/
def normalField (accs : List Account) (x : Nat) : Str :=
  (normalAt accs x).getD []

theorem findAcc_applyDelta (accs : List Account) (aid : Nat) (d : ℚ)
    (now : Str) (x : Nat) :
    findAcc (applyDelta accs aid d now) x =
      (findAcc accs x).map (fun a =>
        if a.id = aid then
          { a with balance := a.balance + d, updated_at := now }
        else a) := by
  unfold findAcc applyDelta
  rw [List.find?_map]
  have hp : ((fun a : Account => a.id == x) ∘ (fun a =>
      if a.id = aid then
        { a with balance := a.balance + d, updated_at := now }
      else a)) = fun a : Account => a.id == x := by
    funext a
    by_cases h : a.id = aid <;> simp [h]
  rw [hp]

theorem balAt_applyDelta (accs : List Account) (aid : Nat) (d : ℚ)
    (now : Str) (x : Nat) :
    balAt (applyDelta accs aid d now) x =
      (balAt accs x).map (fun b => if x = aid then b + d else b) := by
  unfold balAt
  rw [findAcc_applyDelta]
  cases hf : findAcc accs x with
  | none => simp
  | some a =>
    have hid : a.id = x := by
      have := List.find?_some hf
      simpa using this
    by_cases h : x = aid
    · simp [hid, h]
    · simp [hid, h]

theorem normalAt_applyDelta (accs : List Account) (aid : Nat) (d : ℚ)
    (now : Str) (x : Nat) :
    normalAt (applyDelta accs aid d now) x = normalAt accs x := by
  unfold normalAt
  rw [findAcc_applyDelta]
  cases hf : findAcc accs x with
  | none => simp
  | some a => by_cases h : a.id = aid <;> simp [h]

theorem normalField_applyDelta (accs : List Account) (aid : Nat) (d : ℚ)
    (now : Str) (x : Nat) :
    normalField (applyDelta accs aid d now) x = normalField accs x := by
  unfold normalField
  rw [normalAt_applyDelta]

theorem ids_applyDelta (accs : List Account) (aid : Nat) (d : ℚ) (now : Str) :
    (applyDelta accs aid d now).map (·.id) = accs.map (·.id) := by
  unfold applyDelta
  rw [List.map_map]
  apply List.map_congr_left
  intro a _
  by_cases h : a.id = aid <;> simp [h]

theorem updateAccountBalanceInternal_ok {s : DBState} {aid : Nat} {amt : ℚ}
    {et now : Str} {s' : DBState}
    (h : updateAccountBalanceInternal s aid amt et now = .ok s') :
    ∃ acc, findAcc s.accounts aid = some acc ∧
      s' = { s with
             accounts := applyDelta s.accounts aid
                           (balanceChangeFor acc.normal_balance et amt) now } := by
  unfold updateAccountBalanceInternal at h
  cases hf : s.accounts.find? (fun a => a.id == aid) with
  | none => rw [hf] at h; cases h
  | some acc =>
    rw [hf] at h
    simp only [Except.ok.injEq] at h
    exact ⟨acc, hf, h.symm⟩

/-- Net signed change the reversal loop applies to account `x`. -/
def revDeltaSum (accs : List Account) (es : List JournalEntry) (x : Nat) : ℚ :=
  ((es.filter (fun e => e.account_id == x)).map (fun e =>
    balanceChangeFor (normalField accs x) (reverseEntryType e.entry_type)
      e.amount)).sum

/-- Net signed change the insertion loop applies to account `x`. -/
def insDeltaSum (accs : List Account) (es : List EntryInput) (x : Nat) : ℚ :=
  ((es.filter (fun e => e.account_id.getD 0 == x)).map (fun e =>
    balanceChangeFor (normalField accs x) e.entry_type (e.amount.getD 0))).sum

/-- The `journal_entries` rows the insertion loop writes (`SERIAL` ids from
`startId`). -/
def insertedRows (startId transactionId : Nat) :
    List EntryInput → List JournalEntry
  | [] => []
  | e :: rest =>
    { id := startId, transaction_id := transactionId,
      account_id := e.account_id.getD 0, amount := e.amount.getD 0,
      entry_type := e.entry_type } :: insertedRows (startId + 1) transactionId rest

theorem reverseEntries_ok :
    ∀ {es : List JournalEntry} {s s' : DBState} {now : Str},
    reverseEntries s es now = .ok s' →
    s'.journal = s.journal ∧ s'.transactions = s.transactions ∧
    s'.nextTransactionId = s.nextTransactionId ∧
    s'.nextEntryId = s.nextEntryId ∧
    s'.accounts.map (·.id) = s.accounts.map (·.id) ∧
    (∀ x, normalAt s'.accounts x = normalAt s.accounts x) ∧
    (∀ x, balAt s'.accounts x =
      (balAt s.accounts x).map (fun b => b + revDeltaSum s.accounts es x)) := by
  intro es
  induction es with
  | nil =>
    intro s s' now h
    simp only [reverseEntries, Except.ok.injEq] at h
    subst h
    refine ⟨rfl, rfl, rfl, rfl, rfl, fun x => rfl, fun x => ?_⟩
    cases hb : balAt s.accounts x <;> simp [revDeltaSum]
  | cons e rest ih =>
    intro s s' now h
    simp only [reverseEntries] at h
    cases hu : updateAccountBalanceInternal s e.account_id e.amount
        (reverseEntryType e.entry_type) now with
    | error err => rw [hu] at h; cases h
    | ok s1 =>
      rw [hu] at h
      obtain ⟨acc, hacc, hs1⟩ := updateAccountBalanceInternal_ok hu
      obtain ⟨hj, ht, hn1, hn2, hids, hnorm, hbal⟩ := ih h
      have haccs1 : s1.accounts =
          applyDelta s.accounts e.account_id
            (balanceChangeFor acc.normal_balance (reverseEntryType e.entry_type)
              e.amount) now := by
        rw [hs1]
      have hnorm1 : ∀ x, normalAt s1.accounts x = normalAt s.accounts x := by
        intro x; rw [haccs1, normalAt_applyDelta]
      have hnormf : ∀ x, normalField s1.accounts x = normalField s.accounts x := by
        intro x; unfold normalField; rw [hnorm1]
      refine ⟨?_, ?_, ?_, ?_, ?_, ?_, ?_⟩
      · rw [hj, hs1]
      · rw [ht, hs1]
      · rw [hn1, hs1]
      · rw [hn2, hs1]
      · rw [hids, haccs1, ids_applyDelta]
      · intro x; rw [hnorm x, hnorm1 x]
      · intro x
        rw [hbal x, haccs1, balAt_applyDelta]
        have hsum : revDeltaSum
            (applyDelta s.accounts e.account_id
              (balanceChangeFor acc.normal_balance
                (reverseEntryType e.entry_type) e.amount) now) rest x =
            revDeltaSum s.accounts rest x := by
          unfold revDeltaSum; rw [normalField_applyDelta]
        rw [hsum]
        cases hb : balAt s.accounts x with
        | none => simp
        | some b =>
          simp only [Option.map_some, Option.map_map]
          congr 1
          funext
          by_cases hx : x = e.account_id
          · have hne : normalField s.accounts x = acc.normal_balance := by
              unfold normalField normalAt
              rw [hx, hacc]
              rfl
            simp only [Function.comp]
            rw [if_pos hx]
            have hbq : (e.account_id == x) = true := by simp [hx]
            simp only [revDeltaSum, List.filter_cons, hbq, if_true,
              List.map_cons, List.sum_cons, hne]
            ring
          · simp only [Function.comp]
            rw [if_neg hx]
            have hbq : (e.account_id == x) = false := by
              simp
              exact fun hc => hx hc.symm
            simp only [revDeltaSum, List.filter_cons, hbq, Bool.false_eq_true,
              if_false]

theorem insertJournalEntries_ok :
    ∀ {es : List EntryInput} {s s' : DBState} {tid : Nat} {now : Str},
    insertJournalEntries s tid es now = .ok s' →
    s'.transactions = s.transactions ∧
    s'.nextTransactionId = s.nextTransactionId ∧
    s'.journal = s.journal ++ insertedRows s.nextEntryId tid es ∧
    s'.nextEntryId = s.nextEntryId + es.length ∧
    s'.accounts.map (·.id) = s.accounts.map (·.id) ∧
    (∀ x, normalAt s'.accounts x = normalAt s.accounts x) ∧
    (∀ x, balAt s'.accounts x =
      (balAt s.accounts x).map (fun b => b + insDeltaSum s.accounts es x)) := by
  intro es
  induction es with
  | nil =>
    intro s s' tid now h
    simp only [insertJournalEntries, Except.ok.injEq] at h
    subst h
    refine ⟨rfl, rfl, by simp [insertedRows], rfl, rfl, fun x => rfl, fun x => ?_⟩
    cases hb : balAt s.accounts x <;> simp [insDeltaSum]
  | cons e rest ih =>
    intro s s' tid now h
    simp only [insertJournalEntries] at h
    cases hid : e.account_id with
    | none => rw [hid] at h; cases h
    | some aid =>
      rw [hid] at h
      cases ham : e.amount with
      | none => rw [ham] at h; cases h
      | some a =>
        rw [ham] at h
        simp only at h
        set row : JournalEntry :=
          { id := s.nextEntryId, transaction_id := tid, account_id := aid,
            amount := a, entry_type := e.entry_type } with hrow
        set s1 : DBState :=
          { s with journal := s.journal ++ [row],
                   nextEntryId := s.nextEntryId + 1 } with hs1
        cases hu : updateAccountBalanceInternal s1 aid a e.entry_type now with
        | error err => rw [hu] at h; cases h
        | ok s2 =>
          rw [hu] at h
          obtain ⟨acc, hacc, hs2⟩ := updateAccountBalanceInternal_ok hu
          obtain ⟨ht, hn1, hj, hn2, hids, hnorm, hbal⟩ := ih h
          have haccs2 : s2.accounts =
              applyDelta s.accounts aid
                (balanceChangeFor acc.normal_balance e.entry_type a) now := by
            rw [hs2]
          have hacc' : findAcc s.accounts aid = some acc := hacc
          have hnorm2 : ∀ x, normalAt s2.accounts x = normalAt s.accounts x := by
            intro x; rw [haccs2, normalAt_applyDelta]
          have hnormf : ∀ x, normalField s2.accounts x = normalField s.accounts x := by
            intro x; unfold normalField; rw [hnorm2]
          have hj2 : s2.journal = s.journal ++ [row] := by rw [hs2]
          have hn2' : s2.nextEntryId = s.nextEntryId + 1 := by rw [hs2]
          refine ⟨?_, ?_, ?_, ?_, ?_, ?_, ?_⟩
          · rw [ht, hs2]
          · rw [hn1, hs2]
          · rw [hj, hj2, hn2']
            simp only [insertedRows, hid, ham, List.append_assoc,
              List.singleton_append, hrow, Option.getD_some]
          · rw [hn2, hn2']
            simp [List.length_cons]
            omega
          · rw [hids, haccs2, ids_applyDelta]
          · intro x; rw [hnorm x, hnorm2 x]
          · intro x
            rw [hbal x, haccs2, balAt_applyDelta]
            have hsum : insDeltaSum
                (applyDelta s.accounts aid
                  (balanceChangeFor acc.normal_balance e.entry_type a) now)
                rest x = insDeltaSum s.accounts rest x := by
              unfold insDeltaSum; rw [normalField_applyDelta]
            rw [hsum]
            cases hb : balAt s.accounts x with
            | none => simp
            | some b =>
              simp only [Option.map_some, Option.map_map]
              congr 1
              funext
              by_cases hx : x = aid
              · have hne : normalField s.accounts x = acc.normal_balance := by
                  unfold normalField normalAt
                  rw [hx, hacc']
                  rfl
                simp only [Function.comp]
                rw [if_pos hx]
                simp only [insDeltaSum, List.filter_cons, hid, ham,
                  Option.getD_some, hne]
                have haq : (aid == x) = true := by simp [hx]
                simp only [haq, if_true, List.map_cons, List.sum_cons, ham,
                  Option.getD_some]
                ring
              · simp only [Function.comp]
                rw [if_neg hx]
                have haq : (aid == x) = false := by
                  simp
                  exact fun hc => hx hc.symm
                simp only [insDeltaSum, List.filter_cons, hid, ham,
                  Option.getD_some, haq, Bool.false_eq_true, if_false]

/-! ## Toolkit: the lexicographic string order used for date comparison -/

theorem charLtb_irrefl (a : Char) : charLtb a a = false := by
  simp [charLtb]

theorem charLtb_trans {a b c : Char} (h1 : charLtb a b = true)
    (h2 : charLtb b c = true) : charLtb a c = true := by
  simp only [charLtb, decide_eq_true_eq] at h1 h2 ⊢
  omega

theorem charLtb_connex (a b : Char) :
    charLtb a b = true ∨ a = b ∨ charLtb b a = true := by
  simp only [charLtb, decide_eq_true_eq]
  rcases Nat.lt_trichotomy a.toNat b.toNat with h | h | h
  · exact Or.inl h
  · exact Or.inr (Or.inl (Char.ext (UInt32.ext h)))
  · exact Or.inr (Or.inr h)

theorem strLtb_irrefl : ∀ (a : Str), strLtb a a = false
  | [] => rfl
  | c :: cs => by simp [strLtb, strLtb_irrefl cs]

theorem strLtb_trans :
    ∀ {a b c : Str}, strLtb a b = true → strLtb b c = true → strLtb a c = true
  | [], [], _, h1, _ => by cases h1
  | [], _ :: _, [], _, h2 => by cases h2
  | [], _ :: _, _ :: _, _, _ => rfl
  | _ :: _, [], _, h1, _ => by cases h1
  | _ :: _, _ :: _, [], _, h2 => by cases h2
  | x :: xs, y :: ys, z :: zs, h1, h2 => by
    simp only [strLtb] at h1 h2 ⊢
    by_cases hxy : x = y
    · subst hxy
      rw [if_pos rfl] at h1
      by_cases hyz : x = z
      · subst hyz
        rw [if_pos rfl] at h2 ⊢
        exact strLtb_trans h1 h2
      · rw [if_neg hyz] at h2 ⊢
        exact h2
    · rw [if_neg hxy] at h1
      by_cases hyz : y = z
      · subst hyz
        rw [if_neg hxy]
        exact h1
      · rw [if_neg hyz] at h2
        by_cases hxz : x = z
        · subst hxz
          have := charLtb_trans h1 h2
          rw [charLtb_irrefl] at this
          cases this
        · rw [if_neg hxz]
          exact charLtb_trans h1 h2

theorem strLtb_connex :
    ∀ (a b : Str), strLtb a b = true ∨ a = b ∨ strLtb b a = true
  | [], [] => Or.inr (Or.inl rfl)
  | [], _ :: _ => Or.inl rfl
  | _ :: _, [] => Or.inr (Or.inr rfl)
  | x :: xs, y :: ys => by
    by_cases hxy : x = y
    · subst hxy
      rcases strLtb_connex xs ys with h | h | h
      · exact Or.inl (by simp [strLtb, h])
      · exact Or.inr (Or.inl (by rw [h]))
      · exact Or.inr (Or.inr (by simp [strLtb, h]))
    · rcases charLtb_connex x y with h | h | h
      · exact Or.inl (by simp [strLtb, hxy, h])
      · exact absurd h hxy
      · refine Or.inr (Or.inr ?_)
        have hyx : ¬(y = x) := fun hc => hxy hc.symm
        simp [strLtb, hyx, h]

theorem ledgerRowLe_trans (a b c : Transaction × JournalEntry)
    (h1 : ledgerRowLe a b = true) (h2 : ledgerRowLe b c = true) :
    ledgerRowLe a c = true := by
  simp only [ledgerRowLe, Bool.or_eq_true, Bool.and_eq_true,
    decide_eq_true_eq] at h1 h2 ⊢
  rcases h1 with h1 | ⟨h1e, h1i⟩
  · rcases h2 with h2 | ⟨h2e, h2i⟩
    · exact Or.inl (strLtb_trans h1 h2)
    · exact Or.inl (h2e ▸ h1)
  · rcases h2 with h2 | ⟨h2e, h2i⟩
    · exact Or.inl (h1e ▸ h2)
    · exact Or.inr ⟨h1e.trans h2e, by omega⟩

theorem ledgerRowLe_total (a b : Transaction × JournalEntry) :
    (ledgerRowLe a b || ledgerRowLe b a) = true := by
  simp only [ledgerRowLe, Bool.or_eq_true, Bool.and_eq_true,
    decide_eq_true_eq]
  rcases strLtb_connex a.1.transaction_date b.1.transaction_date with h | h | h
  · exact Or.inl (Or.inl h)
  · rcases Nat.le_total a.1.id b.1.id with hi | hi
    · exact Or.inl (Or.inr ⟨h, by omega⟩)
    · exact Or.inr (Or.inr ⟨h.symm, by omega⟩)
  · exact Or.inr (Or.inl h)

/-! ## Toolkit: validator facts -/

/-- What the entry loop guarantees about every entry it accepted. -/
def entriesScanOk (entries : List EntryInput) : Prop :=
  ∀ e ∈ entries, e.account_id.getD 0 ≠ 0 ∧
    (∃ a, e.amount = some a ∧ 0 < a) ∧
    (e.entry_type = DebitS ∨ e.entry_type = CreditS)

theorem scanEntries_ok_entries :
    ∀ {es : List EntryInput} {i : Nat} {acc res : ℚ × ℚ × List Nat},
    scanEntries es i acc = .ok res → entriesScanOk es := by
  intro es
  induction es with
  | nil => intro i acc res _ e he; cases he
  | cons e rest ih =>
    intro i acc res h
    obtain ⟨td, tc, ids⟩ := acc
    simp only [scanEntries] at h
    by_cases hid : e.account_id.getD 0 = 0
    · rw [if_pos hid] at h; cases h
    · rw [if_neg hid] at h
      cases ham : e.amount with
      | none => rw [ham] at h; cases h
      | some a =>
        rw [ham] at h
        simp only at h
        by_cases hpos : a ≤ 0
        · rw [if_pos hpos] at h; cases h
        · rw [if_neg hpos] at h
          by_cases hty : ¬(e.entry_type = DebitS ∨ e.entry_type = CreditS)
          · rw [if_pos hty] at h; cases h
          · rw [if_neg hty] at h
            intro e' he'
            rcases List.mem_cons.mp he' with he' | he'
            · subst he'
              exact ⟨hid, ⟨a, ham, by linarith⟩, not_not.mp hty⟩
            · exact ih h e' he'

theorem validateTransaction_ok {t : TxnDraft} {v : ValidationResult}
    (h : validateTransaction t = .ok v) :
    convertToYYYYMMDD t.date = some v.dbDate ∧
    2 ≤ t.entries.length ∧ entriesScanOk t.entries := by
  unfold validateTransaction at h
  by_cases h1 : trimStr t.date = []
  · rw [if_pos h1] at h; cases h
  · rw [if_neg h1] at h
    cases hc : convertToYYYYMMDD t.date with
    | none => rw [hc] at h; cases h
    | some dbDate =>
      rw [hc] at h
      simp only at h
      by_cases h2 : trimStr t.description = []
      · rw [if_pos h2] at h; cases h
      · rw [if_neg h2] at h
        by_cases h3 : 200 < t.description.length
        · rw [if_pos h3] at h; cases h
        · rw [if_neg h3] at h
          by_cases h4 : t.entries.length < 2
          · rw [if_pos h4] at h; cases h
          · rw [if_neg h4] at h
            cases hs : scanEntries t.entries 0 (0, 0, []) with
            | error e => rw [hs] at h; cases h
            | ok res =>
              rw [hs] at h
              obtain ⟨td, tc, ids⟩ := res
              simp only at h
              by_cases h5 : 1 / 100 < |td - tc|
              · rw [if_pos h5] at h; cases h
              · rw [if_neg h5] at h
                by_cases h6 : ids.dedup.length < 2
                · rw [if_pos h6] at h; cases h
                · rw [if_neg h6] at h
                  simp only [Except.ok.injEq] at h
                  subst h
                  exact ⟨by simp [hc], by omega, scanEntries_ok_entries hs⟩

/-! ## Toolkit: the signed-effect rules under the schema constraints -/

theorem balanceChangeFor_eq_claim {n : Str} (t : Str) (a : ℚ)
    (hn : n = DebitS ∨ n = CreditS) :
    balanceChangeFor n t a = (if t = n then a else -a) := by
  have hdc : ¬(CreditS = DebitS) := by decide
  rcases hn with hn | hn <;> subst hn
  · simp [balanceChangeFor]
  · simp [balanceChangeFor, hdc]

theorem balanceChangeFor_reverse (n : Str) {t : Str} (a : ℚ)
    (ht : t = DebitS ∨ t = CreditS) :
    balanceChangeFor n (reverseEntryType t) a = -(balanceChangeFor n t a) := by
  have hdc : ¬(CreditS = DebitS) := by decide
  have hcd : ¬(DebitS = CreditS) := by decide
  rcases ht with ht | ht <;> subst ht <;>
    by_cases hn : n = DebitS <;>
      simp [balanceChangeFor, reverseEntryType, hn, hdc, hcd]

/-! ## Toolkit: signed sums -/

theorem signedSumAt_nil (n : Str) (x : Nat) : signedSumAt [] n x = 0 := rfl

theorem signedSumAt_cons (e : JournalEntry) (rest : List JournalEntry)
    (n : Str) (x : Nat) :
    signedSumAt (e :: rest) n x =
      (if e.account_id = x then claimContribution n e else 0) +
        signedSumAt rest n x := by
  by_cases hx : e.account_id = x
  · have hbq : (e.account_id == x) = true := by simp [hx]
    simp [signedSumAt, List.filter_cons, hbq, hx]
  · have hbq : (e.account_id == x) = false := by simp [hx]
    simp [signedSumAt, List.filter_cons, hbq, hx]

theorem signedSumAt_append (j1 j2 : List JournalEntry) (n : Str) (x : Nat) :
    signedSumAt (j1 ++ j2) n x = signedSumAt j1 n x + signedSumAt j2 n x := by
  simp [signedSumAt, List.filter_append]

theorem signedSumAt_filter_partition (journal : List JournalEntry) (n : Str)
    (x : Nat) (q : JournalEntry → Bool) :
    signedSumAt journal n x =
      signedSumAt (journal.filter q) n x +
        signedSumAt (journal.filter (fun e => !(q e))) n x := by
  induction journal with
  | nil => simp [signedSumAt]
  | cons e rest ih =>
    by_cases hq : q e
    · simp only [List.filter_cons, hq, if_true, Bool.not_true,
        Bool.false_eq_true, if_false, signedSumAt_cons, ih]
      ring
    · have hq' : (q e) = false := by simpa using hq
      simp only [List.filter_cons, hq', Bool.false_eq_true, if_false,
        Bool.not_false, if_true, signedSumAt_cons, ih]
      ring

theorem insDeltaSum_eq_signedSumAt (accs : List Account) (x : Nat)
    (es : List EntryInput)
    (hn : normalField accs x = DebitS ∨ normalField accs x = CreditS) :
    ∀ (startId tid : Nat),
    insDeltaSum accs es x =
      signedSumAt (insertedRows startId tid es) (normalField accs x) x := by
  induction es with
  | nil => intro startId tid; simp [insDeltaSum, insertedRows, signedSumAt]
  | cons e rest ih =>
    intro startId tid
    have hrest := ih (startId + 1) tid
    simp only [insDeltaSum] at hrest
    by_cases hx : e.account_id.getD 0 = x
    · have hbq : (e.account_id.getD 0 == x) = true := by simp [hx]
      simp only [insDeltaSum, insertedRows, List.filter_cons, hbq, if_true,
        List.map_cons, List.sum_cons, signedSumAt_cons]
      rw [if_pos hx, hrest,
        balanceChangeFor_eq_claim e.entry_type (e.amount.getD 0) hn]
      simp [claimContribution]
    · have hbq : (e.account_id.getD 0 == x) = false := by simp [hx]
      simp only [insDeltaSum, insertedRows, List.filter_cons, hbq,
        Bool.false_eq_true, if_false, signedSumAt_cons]
      rw [if_neg hx, hrest]
      simp

theorem revDeltaSum_eq_neg (accs : List Account) (x : Nat)
    (es : List JournalEntry)
    (hn : normalField accs x = DebitS ∨ normalField accs x = CreditS)
    (ht : ∀ e ∈ es, e.entry_type = DebitS ∨ e.entry_type = CreditS) :
    revDeltaSum accs es x = -(signedSumAt es (normalField accs x) x) := by
  induction es with
  | nil => simp [revDeltaSum, signedSumAt]
  | cons e rest ih =>
    have hte : e.entry_type = DebitS ∨ e.entry_type = CreditS :=
      ht e (List.mem_cons_self e rest)
    have htr : ∀ e ∈ rest, e.entry_type = DebitS ∨ e.entry_type = CreditS :=
      fun e he => ht e (List.mem_cons_of_mem _ he)
    have hrest := ih htr
    simp only [revDeltaSum] at hrest
    by_cases hx : e.account_id = x
    · have hbq : (e.account_id == x) = true := by simp [hx]
      simp only [revDeltaSum, List.filter_cons, hbq, if_true, List.map_cons,
        List.sum_cons, signedSumAt_cons]
      rw [if_pos hx, hrest,
        balanceChangeFor_reverse (normalField accs x) e.amount hte,
        balanceChangeFor_eq_claim e.entry_type e.amount hn]
      simp only [claimContribution]
      ring
    · have hbq : (e.account_id == x) = false := by simp [hx]
      simp only [revDeltaSum, List.filter_cons, hbq, Bool.false_eq_true,
        if_false, signedSumAt_cons]
      rw [if_neg hx, hrest]
      simp

/-! ## Toolkit: lookups under `Nodup` ids -/

theorem mem_of_findAcc {accs : List Account} {x : Nat} {a : Account}
    (h : findAcc accs x = some a) : a ∈ accs ∧ a.id = x := by
  refine ⟨List.mem_of_find?_eq_some h, ?_⟩
  have := List.find?_some h
  simpa using this

theorem findAcc_self {accs : List Account}
    (hnd : (accs.map (·.id)).Nodup) {a : Account} (ha : a ∈ accs) :
    findAcc accs a.id = some a := by
  induction accs with
  | nil => cases ha
  | cons b t ih =>
    have hnd' : (t.map (·.id)).Nodup := (List.nodup_cons.mp hnd).2
    rcases List.mem_cons.mp ha with hab | hat
    · subst hab
      unfold findAcc
      rw [List.find?_cons_of_pos _ (by simp)]
    · have hne : ¬((fun acc : Account => acc.id == a.id) b = true) := by
        simp only [beq_iff_eq]
        intro he
        have hmem : a.id ∈ t.map (·.id) := List.mem_map_of_mem _ hat
        rw [← he] at hmem
        exact (List.nodup_cons.mp hnd).1 hmem
      unfold findAcc
      rw [@List.find?_cons_of_neg Account (fun acc => acc.id == a.id) b t hne]
      exact ih hnd' hat

/-! ## Toolkit: operation-level characterizations -/

theorem createTransaction_ok {s : DBState} {t : TxnDraft} {now : Str}
    {s' : DBState} {r : CreateResult}
    (h : createTransaction s t now = .ok (s', r)) :
    ∃ v, validateTransaction t = .ok v ∧
      r = { transactionId := s.nextTransactionId,
            transactionNumber := getNextTransactionNumber s,
            totalDebits := v.totalDebits, totalCredits := v.totalCredits,
            date_display := convertToDDMMYYYY v.dbDate } ∧
      s'.transactions = s.transactions ++
        [{ id := s.nextTransactionId,
           transaction_number := getNextTransactionNumber s,
           transaction_date := v.dbDate, description := t.description,
           reference := some (t.reference.getD []), updated_at := now }] ∧
      s'.nextTransactionId = s.nextTransactionId + 1 ∧
      s'.journal = s.journal ++
        insertedRows s.nextEntryId s.nextTransactionId t.entries ∧
      s'.nextEntryId = s.nextEntryId + t.entries.length ∧
      s'.accounts.map (·.id) = s.accounts.map (·.id) ∧
      (∀ x, normalAt s'.accounts x = normalAt s.accounts x) ∧
      (∀ x, balAt s'.accounts x = (balAt s.accounts x).map
        (fun b => b + insDeltaSum s.accounts t.entries x)) := by
  unfold createTransaction at h
  cases hv : validateTransaction t with
  | error e => rw [hv] at h; cases h
  | ok v =>
    rw [hv] at h
    simp only at h
    by_cases hemp : t.entries = []
    · rw [if_pos hemp] at h; cases h
    · rw [if_neg hemp] at h
      set s1 : DBState :=
        { s with
          transactions := s.transactions ++
            [{ id := s.nextTransactionId,
               transaction_number := getNextTransactionNumber s,
               transaction_date := v.dbDate, description := t.description,
               reference := some (t.reference.getD []), updated_at := now }],
          nextTransactionId := s.nextTransactionId + 1 } with hs1
      cases hins : insertJournalEntries s1 s.nextTransactionId t.entries now with
      | error err => rw [hins] at h; cases h
      | ok s2 =>
        rw [hins] at h
        simp only [Except.ok.injEq, Prod.mk.injEq] at h
        obtain ⟨hs2, hr⟩ := h
        subst hs2
        obtain ⟨ht1, hn1, hj, hn2, hids, hnorm, hbal⟩ :=
          insertJournalEntries_ok hins
        have ha1 : s1.accounts = s.accounts := by rw [hs1]
        have hj1 : s1.journal = s.journal := by rw [hs1]
        have he1 : s1.nextEntryId = s.nextEntryId := by rw [hs1]
        refine ⟨v, rfl, hr.symm, ?_, ?_, ?_, ?_, ?_, ?_, ?_⟩
        · rw [ht1, hs1]
        · rw [hn1, hs1]
        · rw [hj, hj1, he1]
        · rw [hn2, he1]
        · rw [hids, ha1]
        · intro x; rw [hnorm x, ha1]
        · intro x; rw [hbal x, ha1]

theorem deleteTransaction_ok {s : DBState} {tid : Nat} {now : Str}
    {s' : DBState} {n : Nat}
    (h : deleteTransaction s tid now = .ok (s', n)) :
    s.journal.filter (fun e => e.transaction_id == tid) ≠ [] ∧
    s'.journal = s.journal.filter (fun e => !(e.transaction_id == tid)) ∧
    s'.transactions = s.transactions.filter (fun t => !(t.id == tid)) ∧
    s'.nextTransactionId = s.nextTransactionId ∧
    s'.nextEntryId = s.nextEntryId ∧
    s'.accounts.map (·.id) = s.accounts.map (·.id) ∧
    (∀ x, normalAt s'.accounts x = normalAt s.accounts x) ∧
    (∀ x, balAt s'.accounts x = (balAt s.accounts x).map
      (fun b => b + revDeltaSum s.accounts
        (s.journal.filter (fun e => e.transaction_id == tid)) x)) := by
  unfold deleteTransaction at h
  simp only at h
  by_cases hemp : s.journal.filter (fun e => e.transaction_id == tid) = []
  · rw [if_pos hemp] at h; cases h
  · rw [if_neg hemp] at h
    cases hrev : reverseEntries s
        (s.journal.filter (fun e => e.transaction_id == tid)) now with
    | error err => rw [hrev] at h; cases h
    | ok s1 =>
      rw [hrev] at h
      simp only [Except.ok.injEq, Prod.mk.injEq] at h
      obtain ⟨hs', hn⟩ := h
      obtain ⟨hj1, ht1, hnt1, hne1, hids1, hnorm1, hbal1⟩ :=
        reverseEntries_ok hrev
      refine ⟨hemp, ?_, ?_, ?_, ?_, ?_, ?_, ?_⟩
      · rw [← hs']; simp only; rw [hj1]
      · rw [← hs']; simp only; rw [ht1]
      · rw [← hs']; simp only; exact hnt1
      · rw [← hs']; simp only; exact hne1
      · rw [← hs']; simp only; exact hids1
      · intro x; rw [← hs']; simp only; exact hnorm1 x
      · intro x; rw [← hs']; simp only; exact hbal1 x

theorem updateFullTransaction_ok {s : DBState} {tid : Nat} {u : UpdateData}
    {now : Str} {s' : DBState} {r : FullUpdateResult}
    (h : updateFullTransaction s tid u now = .ok (s', r)) :
    ∃ entries v,
      u.entries = some entries ∧
      validateTransaction
        { date := u.date, description := u.description,
          reference := none, entries := entries } = .ok v ∧
      s.journal.filter (fun e => e.transaction_id == tid) ≠ [] ∧
      s'.journal = s.journal.filter (fun e => !(e.transaction_id == tid)) ++
        insertedRows s.nextEntryId tid entries ∧
      s'.transactions = s.transactions.map (fun tr =>
        if tr.id = tid then
          { tr with transaction_date := v.dbDate, description := u.description,
                    reference := some (u.reference.getD []),
                    updated_at := now }
        else tr) ∧
      s'.nextTransactionId = s.nextTransactionId ∧
      s'.nextEntryId = s.nextEntryId + entries.length ∧
      s'.accounts.map (·.id) = s.accounts.map (·.id) ∧
      (∀ x, normalAt s'.accounts x = normalAt s.accounts x) ∧
      (∀ x, balAt s'.accounts x = (balAt s.accounts x).map
        (fun b => b + revDeltaSum s.accounts
            (s.journal.filter (fun e => e.transaction_id == tid)) x
          + insDeltaSum s.accounts entries x)) := by
  unfold updateFullTransaction at h
  cases hent : u.entries with
  | none => rw [hent] at h; cases h
  | some entries =>
    rw [hent] at h
    simp only at h
    by_cases hreq : u.date = [] ∨ u.description = []
    · rw [if_pos hreq] at h; cases h
    · rw [if_neg hreq] at h
      cases hc : convertToYYYYMMDD u.date with
      | none => rw [hc] at h; cases h
      | some sqlDate =>
        rw [hc] at h
        simp only at h
        cases hv : validateTransaction
            { date := u.date, description := u.description,
              reference := none, entries := entries } with
        | error e => rw [hv] at h; cases h
        | ok v =>
          rw [hv] at h
          simp only at h
          by_cases hemp :
              s.journal.filter (fun e => e.transaction_id == tid) = []
          · rw [if_pos hemp] at h; cases h
          · rw [if_neg hemp] at h
            cases hrev : reverseEntries s
                (s.journal.filter (fun e => e.transaction_id == tid)) now with
            | error err => rw [hrev] at h; cases h
            | ok s1 =>
              rw [hrev] at h
              simp only at h
              obtain ⟨hj1, ht1, hnt1, hne1, hids1, hnorm1, hbal1⟩ :=
                reverseEntries_ok hrev
              set s3 : DBState :=
                { s1 with
                  journal := s1.journal.filter
                    (fun e => !(e.transaction_id == tid)),
                  transactions := s1.transactions.map (fun tr =>
                    if tr.id = tid then
                      { tr with transaction_date := sqlDate,
                                description := u.description,
                                reference := some (u.reference.getD []),
                                updated_at := now }
                    else tr) } with hs3
              cases hfind : s1.transactions.find? (fun tr => tr.id == tid) with
              | none => rw [hfind] at h; cases h
              | some txnRow =>
                rw [hfind] at h
                simp only at h
                cases hins : insertJournalEntries s3 tid entries now with
                | error err => rw [hins] at h; cases h
                | ok s4 =>
                  rw [hins] at h
                  simp only [Except.ok.injEq, Prod.mk.injEq] at h
                  obtain ⟨hs4, hr⟩ := h
                  subst hs4
                  obtain ⟨ht4, hnt4, hj4, hne4, hids4, hnorm4, hbal4⟩ :=
                    insertJournalEntries_ok hins
                  have hsql : sqlDate = v.dbDate := by
                    have := (validateTransaction_ok hv).1
                    simp only at this
                    rw [hc] at this
                    exact (Option.some.injEq _ _ ▸ this :
                      sqlDate = v.dbDate)
                  have ha3 : s3.accounts = s1.accounts := by rw [hs3]
                  have hj3 : s3.journal =
                      s.journal.filter (fun e => !(e.transaction_id == tid)) := by
                    rw [hs3]; simp only; rw [hj1]
                  have hne3 : s3.nextEntryId = s.nextEntryId := by
                    rw [hs3]; simp only; rw [hne1]
                  have hnt3 : s3.nextTransactionId = s.nextTransactionId := by
                    rw [hs3]; simp only; rw [hnt1]
                  have ht3 : s3.transactions = s.transactions.map (fun tr =>
                      if tr.id = tid then
                        { tr with transaction_date := v.dbDate,
                                  description := u.description,
                                  reference := some (u.reference.getD []),
                                  updated_at := now }
                      else tr) := by
                    rw [hs3]; simp only; rw [ht1, hsql]
                  refine ⟨entries, v, rfl, hv, hemp, ?_, ?_, ?_, ?_, ?_, ?_, ?_⟩
                  · rw [hj4, hj3, hne3]
                  · rw [ht4, ht3]
                  · rw [hnt4, hnt3]
                  · rw [hne4, hne3]
                  · rw [hids4, ha3, hids1]
                  · intro x; rw [hnorm4 x, ha3, hnorm1 x]
                  · intro x
                    rw [hbal4 x, ha3, hbal1 x]
                    have hsum : insDeltaSum s1.accounts entries x =
                        insDeltaSum s.accounts entries x := by
                      unfold insDeltaSum
                      have : normalField s1.accounts x = normalField s.accounts x := by
                        unfold normalField; rw [hnorm1 x]
                      rw [this]
                    rw [hsum]
                    cases hb : balAt s.accounts x with
                    | none => simp
                    | some b =>
                      simp only [Option.map_some', Option.some.injEq,
                        Function.comp_apply]

theorem updateBasicTransaction_ok {s : DBState} {tid : Nat} {u : UpdateData}
    {now : Str} {s' : DBState}
    (h : updateBasicTransaction s tid u now = .ok s') :
    s'.accounts = s.accounts ∧ s'.journal = s.journal ∧
    s'.nextTransactionId = s.nextTransactionId ∧
    s'.nextEntryId = s.nextEntryId ∧
    ∃ sqlDate, convertToYYYYMMDD u.date = some sqlDate ∧
      s'.transactions = s.transactions.map (fun tr =>
        if tr.id = tid then
          { tr with transaction_date := sqlDate,
                    description := u.description,
                    reference := u.reference, updated_at := now }
        else tr) := by
  unfold updateBasicTransaction at h
  by_cases hreq : u.date = [] ∨ u.description = []
  · rw [if_pos hreq] at h; cases h
  · rw [if_neg hreq] at h
    cases hc : convertToYYYYMMDD u.date with
    | none => rw [hc] at h; cases h
    | some sqlDate =>
      rw [hc] at h
      simp only at h
      cases hfind : s.transactions.find? (fun tr => tr.id == tid) with
      | none => rw [hfind] at h; cases h
      | some txnRow =>
        rw [hfind] at h
        simp only [Except.ok.injEq] at h
        subst h
        exact ⟨rfl, rfl, rfl, rfl, sqlDate, rfl, rfl⟩

/-! ## Toolkit: transaction numbering -/

theorem le_maxTransactionNumber {ts : List Transaction} {t : Transaction}
    (ht : t ∈ ts) : t.transaction_number ≤ maxTransactionNumber ts := by
  induction ts with
  | nil => cases ht
  | cons b rest ih =>
    rcases List.mem_cons.mp ht with hb | hrest
    · subst hb
      simp only [maxTransactionNumber, List.foldr_cons]
      omega
    · have := ih hrest
      simp only [maxTransactionNumber, List.foldr_cons] at this ⊢
      omega

theorem maxTransactionNumber_append_single (ts : List Transaction)
    (t : Transaction) :
    maxTransactionNumber (ts ++ [t]) =
      max (maxTransactionNumber ts) t.transaction_number := by
  induction ts with
  | nil => simp [maxTransactionNumber]
  | cons b rest ih =>
    simp only [maxTransactionNumber, List.cons_append, List.foldr_cons] at ih ⊢
    omega

/-! ## Toolkit: error discrimination for the defensive branch -/

/-- Whether a result is the `'No journal entries provided'` error of the
defensive branch inside `createTransaction`. -/
def resultIsNoJournalEntries {α : Type} : Except Err α → Bool
  | .error .noJournalEntries => true
  | _ => false

theorem scanEntries_error_ne :
    ∀ {es : List EntryInput} {i : Nat} {acc : ℚ × ℚ × List Nat} {e : Err},
    scanEntries es i acc = .error e → e ≠ .noJournalEntries := by
  intro es
  induction es with
  | nil => intro i acc e h; cases h
  | cons a rest ih =>
    intro i acc e h
    obtain ⟨td, tc, ids⟩ := acc
    simp only [scanEntries] at h
    by_cases hid : a.account_id.getD 0 = 0
    · rw [if_pos hid] at h
      simp only [Except.error.injEq] at h
      subst h; intro hc; cases hc
    · rw [if_neg hid] at h
      cases ham : a.amount with
      | none =>
        rw [ham] at h
        simp only [Except.error.injEq] at h
        subst h; intro hc; cases hc
      | some q =>
        rw [ham] at h
        simp only at h
        by_cases hpos : q ≤ 0
        · rw [if_pos hpos] at h
          simp only [Except.error.injEq] at h
          subst h; intro hc; cases hc
        · rw [if_neg hpos] at h
          by_cases hty : ¬(a.entry_type = DebitS ∨ a.entry_type = CreditS)
          · rw [if_pos hty] at h
            simp only [Except.error.injEq] at h
            subst h; intro hc; cases hc
          · rw [if_neg hty] at h
            exact ih h

theorem validateTransaction_error_ne {t : TxnDraft} {e : Err}
    (h : validateTransaction t = .error e) : e ≠ .noJournalEntries := by
  unfold validateTransaction at h
  by_cases h1 : trimStr t.date = []
  · rw [if_pos h1] at h
    simp only [Except.error.injEq] at h
    subst h; intro hc; cases hc
  · rw [if_neg h1] at h
    cases hc0 : convertToYYYYMMDD t.date with
    | none =>
      rw [hc0] at h
      simp only [Except.error.injEq] at h
      subst h; intro hc; cases hc
    | some dbDate =>
      rw [hc0] at h
      simp only at h
      by_cases h2 : trimStr t.description = []
      · rw [if_pos h2] at h
        simp only [Except.error.injEq] at h
        subst h; intro hc; cases hc
      · rw [if_neg h2] at h
        by_cases h3 : 200 < t.description.length
        · rw [if_pos h3] at h
          simp only [Except.error.injEq] at h
          subst h; intro hc; cases hc
        · rw [if_neg h3] at h
          by_cases h4 : t.entries.length < 2
          · rw [if_pos h4] at h
            simp only [Except.error.injEq] at h
            subst h; intro hc; cases hc
          · rw [if_neg h4] at h
            cases hs : scanEntries t.entries 0 (0, 0, []) with
            | error e2 =>
              rw [hs] at h
              simp only [Except.error.injEq] at h
              subst h
              exact scanEntries_error_ne hs
            | ok res =>
              rw [hs] at h
              obtain ⟨td, tc, ids⟩ := res
              simp only at h
              by_cases h5 : 1 / 100 < |td - tc|
              · rw [if_pos h5] at h
                simp only [Except.error.injEq] at h
                subst h; intro hc; cases hc
              · rw [if_neg h5] at h
                by_cases h6 : ids.dedup.length < 2
                · rw [if_pos h6] at h
                  simp only [Except.error.injEq] at h
                  subst h; intro hc; cases hc
                · rw [if_neg h6] at h; cases h

theorem insertJournalEntries_error_ne :
    ∀ {es : List EntryInput} {s : DBState} {tid : Nat} {now : Str} {e : Err},
    insertJournalEntries s tid es now = .error e → e ≠ .noJournalEntries := by
  intro es
  induction es with
  | nil => intro s tid now e h; cases h
  | cons a rest ih =>
    intro s tid now e h
    simp only [insertJournalEntries] at h
    cases hid : a.account_id with
    | none =>
      rw [hid] at h
      simp only [Except.error.injEq] at h
      subst h; intro hc; cases hc
    | some aid =>
      rw [hid] at h
      cases ham : a.amount with
      | none =>
        rw [ham] at h
        simp only [Except.error.injEq] at h
        subst h; intro hc; cases hc
      | some q =>
        rw [ham] at h
        simp only at h
        cases hu : updateAccountBalanceInternal
            { s with
              journal := s.journal ++
                [{ id := s.nextEntryId, transaction_id := tid,
                   account_id := aid, amount := q,
                   entry_type := a.entry_type }],
              nextEntryId := s.nextEntryId + 1 } aid q a.entry_type now with
        | error err =>
          rw [hu] at h
          unfold updateAccountBalanceInternal at hu
          cases hf : List.find? (fun acc => acc.id == aid) s.accounts with
          | none =>
            rw [hf] at hu
            simp only [Except.error.injEq] at hu h
            subst hu; subst h; intro hc; cases hc
          | some acc =>
            rw [hf] at hu
            simp only at hu
            cases hu
        | ok s2 =>
          rw [hu] at h
          exact ih h

/-! ## Balance-invariant preservation, one lemma per operation -/

theorem create_preserves_balanceInvariant {s : DBState} {t : TxnDraft}
    {now : Str} {s' : DBState} {r : CreateResult}
    (hwf : accountsWF s) (hinv : balanceInvariant s)
    (h : createTransaction s t now = .ok (s', r)) : balanceInvariant s' := by
  obtain ⟨v, hv, hr, htr, hnt, hj, hne, hids, hnorm, hbal⟩ :=
    createTransaction_ok h
  obtain ⟨hnorms, hnd⟩ := hwf
  intro a' ha'
  have hnd' : (s'.accounts.map (·.id)).Nodup := by rw [hids]; exact hnd
  have hfind' : findAcc s'.accounts a'.id = some a' := findAcc_self hnd' ha'
  have hb' : balAt s'.accounts a'.id = some a'.balance := by
    unfold balAt; rw [hfind']; rfl
  rw [hbal a'.id, Option.map_eq_some'] at hb'
  obtain ⟨b, hbs, hba⟩ := hb'
  unfold balAt at hbs
  rw [Option.map_eq_some'] at hbs
  obtain ⟨a0, hfind0, hb0⟩ := hbs
  obtain ⟨ha0mem, ha0id⟩ := mem_of_findAcc hfind0
  have hnormeq : a'.normal_balance = a0.normal_balance := by
    have h1 := hnorm a'.id
    unfold normalAt at h1
    rw [hfind', hfind0] at h1
    simpa using h1
  have hnf : normalField s.accounts a'.id = a0.normal_balance := by
    unfold normalField normalAt; rw [hfind0]; rfl
  have hwfn : a0.normal_balance = DebitS ∨ a0.normal_balance = CreditS :=
    hnorms a0 ha0mem
  have hinv0 : a0.balance = signedSumAt s.journal a0.normal_balance a0.id :=
    hinv a0 ha0mem
  rw [hj, hnormeq, signedSumAt_append, ← hba, ← hb0, hinv0, ha0id]
  congr 1
  have hins := insDeltaSum_eq_signedSumAt s.accounts a'.id t.entries
    (by rw [hnf]; exact hwfn) s.nextEntryId s.nextTransactionId
  rw [hnf] at hins
  exact hins

theorem delete_preserves_balanceInvariant {s : DBState} {tid : Nat}
    {now : Str} {s' : DBState} {n : Nat}
    (hwf : accountsWF s) (hjwf : journalWF s) (hinv : balanceInvariant s)
    (h : deleteTransaction s tid now = .ok (s', n)) : balanceInvariant s' := by
  obtain ⟨hold, hj, ht, _, _, hids, hnorm, hbal⟩ := deleteTransaction_ok h
  obtain ⟨hnorms, hnd⟩ := hwf
  intro a' ha'
  have hnd' : (s'.accounts.map (·.id)).Nodup := by rw [hids]; exact hnd
  have hfind' : findAcc s'.accounts a'.id = some a' := findAcc_self hnd' ha'
  have hb' : balAt s'.accounts a'.id = some a'.balance := by
    unfold balAt; rw [hfind']; rfl
  rw [hbal a'.id, Option.map_eq_some'] at hb'
  obtain ⟨b, hbs, hba⟩ := hb'
  unfold balAt at hbs
  rw [Option.map_eq_some'] at hbs
  obtain ⟨a0, hfind0, hb0⟩ := hbs
  obtain ⟨ha0mem, ha0id⟩ := mem_of_findAcc hfind0
  have hnormeq : a'.normal_balance = a0.normal_balance := by
    have h1 := hnorm a'.id
    unfold normalAt at h1
    rw [hfind', hfind0] at h1
    simpa using h1
  have hnf : normalField s.accounts a'.id = a0.normal_balance := by
    unfold normalField normalAt; rw [hfind0]; rfl
  have hwfn : a0.normal_balance = DebitS ∨ a0.normal_balance = CreditS :=
    hnorms a0 ha0mem
  have hinv0 : a0.balance = signedSumAt s.journal a0.normal_balance a0.id :=
    hinv a0 ha0mem
  have htwf : ∀ e ∈ s.journal.filter (fun e => e.transaction_id == tid),
      e.entry_type = DebitS ∨ e.entry_type = CreditS := by
    intro e he
    exact hjwf e (List.mem_of_mem_filter he)
  have hrev := revDeltaSum_eq_neg s.accounts a'.id
    (s.journal.filter (fun e => e.transaction_id == tid))
    (by rw [hnf]; exact hwfn) htwf
  rw [hnf] at hrev
  have hpart := signedSumAt_filter_partition s.journal a0.normal_balance a'.id
    (fun e => e.transaction_id == tid)
  rw [hj, hnormeq, ← hba, ← hb0, hinv0, hrev, ha0id, hpart]
  ring

theorem updateFull_preserves_balanceInvariant {s : DBState} {tid : Nat}
    {u : UpdateData} {now : Str} {s' : DBState} {r : FullUpdateResult}
    (hwf : accountsWF s) (hjwf : journalWF s) (hinv : balanceInvariant s)
    (h : updateFullTransaction s tid u now = .ok (s', r)) :
    balanceInvariant s' := by
  obtain ⟨entries, v, hent, hv, hold, hj, ht, _, _, hids, hnorm, hbal⟩ :=
    updateFullTransaction_ok h
  obtain ⟨hnorms, hnd⟩ := hwf
  intro a' ha'
  have hnd' : (s'.accounts.map (·.id)).Nodup := by rw [hids]; exact hnd
  have hfind' : findAcc s'.accounts a'.id = some a' := findAcc_self hnd' ha'
  have hb' : balAt s'.accounts a'.id = some a'.balance := by
    unfold balAt; rw [hfind']; rfl
  rw [hbal a'.id, Option.map_eq_some'] at hb'
  obtain ⟨b, hbs, hba⟩ := hb'
  unfold balAt at hbs
  rw [Option.map_eq_some'] at hbs
  obtain ⟨a0, hfind0, hb0⟩ := hbs
  obtain ⟨ha0mem, ha0id⟩ := mem_of_findAcc hfind0
  have hnormeq : a'.normal_balance = a0.normal_balance := by
    have h1 := hnorm a'.id
    unfold normalAt at h1
    rw [hfind', hfind0] at h1
    simpa using h1
  have hnf : normalField s.accounts a'.id = a0.normal_balance := by
    unfold normalField normalAt; rw [hfind0]; rfl
  have hwfn : a0.normal_balance = DebitS ∨ a0.normal_balance = CreditS :=
    hnorms a0 ha0mem
  have hinv0 : a0.balance = signedSumAt s.journal a0.normal_balance a0.id :=
    hinv a0 ha0mem
  have htwf : ∀ e ∈ s.journal.filter (fun e => e.transaction_id == tid),
      e.entry_type = DebitS ∨ e.entry_type = CreditS := by
    intro e he
    exact hjwf e (List.mem_of_mem_filter he)
  have hrev := revDeltaSum_eq_neg s.accounts a'.id
    (s.journal.filter (fun e => e.transaction_id == tid))
    (by rw [hnf]; exact hwfn) htwf
  rw [hnf] at hrev
  have hins := insDeltaSum_eq_signedSumAt s.accounts a'.id entries
    (by rw [hnf]; exact hwfn) s.nextEntryId tid
  rw [hnf] at hins
  have hpart := signedSumAt_filter_partition s.journal a0.normal_balance a'.id
    (fun e => e.transaction_id == tid)
  rw [hj, hnormeq, signedSumAt_append, ← hba, ← hb0, hinv0, hrev, hins, ha0id,
    hpart]
  ring

/-! ## A concrete scenario (used as witness input)

Account 1 is a Debit-normal Asset ("Cash"), account 2 a Credit-normal
Capital account; the journal starts empty. -/

/-- Witness account 1: a Debit-normal Asset with zero balance. -/
def accA : Account :=
  { id := 1, account_code := "1000".data, account_name := "Cash".data,
    account_type := "Asset".data, account_subtype := some ("Current".data),
    normal_balance := DebitS, balance := 0, is_active := true,
    updated_at := [] }

/-- Witness account 2: a Credit-normal Capital account with zero balance. -/
def accB : Account :=
  { id := 2, account_code := "3000".data,
    account_name := "Owner Capital".data, account_type := "Capital".data,
    account_subtype := none, normal_balance := CreditS, balance := 0,
    is_active := true, updated_at := [] }

/-- Witness store: two accounts, empty journal. -/
def exState : DBState :=
  { accounts := [accA, accB], transactions := [], journal := [],
    nextTransactionId := 1, nextEntryId := 1 }

/-- Witness draft: a balanced two-entry posting of 1000. -/
def exDraft : TxnDraft :=
  { date := "01/01/2024".data, description := "Opening balance".data,
    reference := none,
    entries := [{ account_id := some 1, amount := some 1000,
                  entry_type := DebitS },
                { account_id := some 2, amount := some 1000,
                  entry_type := CreditS }] }

/-- Witness clock value. -/
def exNow : Str := "2024-01-01 10:00:00".data

/-- The store after posting `exDraft` into `exState`. -/
def exStateAfter : DBState :=
  { accounts :=
      [{ accA with balance := 1000, updated_at := exNow },
       { accB with balance := 1000, updated_at := exNow }],
    transactions :=
      [{ id := 1, transaction_number := 1,
         transaction_date := "2024-01-01".data,
         description := "Opening balance".data, reference := some [],
         updated_at := exNow }],
    journal :=
      [{ id := 1, transaction_id := 1, account_id := 1, amount := 1000,
         entry_type := DebitS },
       { id := 2, transaction_id := 1, account_id := 2, amount := 1000,
         entry_type := CreditS }],
    nextTransactionId := 2, nextEntryId := 3 }

/-- The scalar result of posting `exDraft` into `exState`. -/
def exResult : CreateResult :=
  { transactionId := 1, transactionNumber := 1, totalDebits := 1000,
    totalCredits := 1000, date_display := "01/01/2024".data }

theorem exValidate_eval :
    validateTransaction exDraft = .ok ⟨"2024-01-01".data, 1000, 1000⟩ := by
  have h1 : trimStr exDraft.date ≠ [] := by decide
  have h2 : convertToYYYYMMDD exDraft.date = some ("2024-01-01".data) := by
    decide
  have h3 : trimStr exDraft.description ≠ [] := by decide
  unfold validateTransaction
  rw [if_neg h1, h2]
  simp only [exDraft, scanEntries, DebitS, CreditS]
  norm_num
  intro hcon
  exact absurd hcon (by decide)

theorem exCreate_eval :
    createTransaction exState exDraft exNow = .ok (exStateAfter, exResult) := by
  unfold createTransaction
  rw [exValidate_eval]
  simp only [exState, exDraft, exStateAfter, exResult, insertJournalEntries,
    updateAccountBalanceInternal, applyDelta, balanceChangeFor, findAcc,
    getNextTransactionNumber, maxTransactionNumber, accA, accB, DebitS,
    CreditS, convertToDDMMYYYY]
  norm_num
  decide

/-! ## The claims -/

/-- C1: For every account, the cached `balance` field always equals the
signed sum of all journal entries referencing that account (each entry
contributes `+amount` when its `entry_type` equals the account's
`normal_balance`, and `−amount` otherwise); this invariant holds after every
successful `createTransaction`, full `updateTransaction`
(`_updateFullTransaction`), and `deleteTransaction`, each of which adjusts
balances entry-by-entry via the shared balance-update helper.  The
well-formedness hypotheses mirror the store's `CHECK` constraints and the
`accounts.id` primary key. -/
theorem C1_balance_invariant_preserved (s : DBState)
    (hwf : accountsWF s) (hjwf : journalWF s) (hinv : balanceInvariant s) :
    (∀ t now s' r, createTransaction s t now = .ok (s', r) →
      balanceInvariant s') ∧
    (∀ tid u now s' r, updateFullTransaction s tid u now = .ok (s', r) →
      balanceInvariant s') ∧
    (∀ tid now s' n, deleteTransaction s tid now = .ok (s', n) →
      balanceInvariant s') :=
  ⟨fun _ _ _ _ h => create_preserves_balanceInvariant hwf hinv h,
   fun _ _ _ _ _ h => updateFull_preserves_balanceInvariant hwf hjwf hinv h,
   fun _ _ _ _ h => delete_preserves_balanceInvariant hwf hjwf hinv h⟩

/-- Witness for C1 at the concrete two-account store. -/
theorem C1_balance_invariant_preserved_witness :
    (∀ t now s' r, createTransaction exState t now = .ok (s', r) →
      balanceInvariant s') ∧
    (∀ tid u now s' r, updateFullTransaction exState tid u now = .ok (s', r) →
      balanceInvariant s') ∧
    (∀ tid now s' n, deleteTransaction exState tid now = .ok (s', n) →
      balanceInvariant s') :=
  C1_balance_invariant_preserved exState (by unfold accountsWF; decide)
    (by unfold journalWF; decide)
    (by intro a ha; fin_cases ha <;> rfl)

/-- C5: The transaction number allocated by `createTransaction` equals the
maximum existing `transaction_number` plus 1, computed inside the same
atomic unit as the insert; on an empty journal the first call yields 1, a
second call yields 2, and an already-allocated number is never reassigned
(every pre-existing number is strictly below the new one, and the new
number becomes the maximum). -/
theorem C5_transaction_numbering {s : DBState} {t : TxnDraft} {now : Str}
    {s' : DBState} {r : CreateResult}
    (h : createTransaction s t now = .ok (s', r)) :
    r.transactionNumber = maxTransactionNumber s.transactions + 1 ∧
    (s.transactions = [] → r.transactionNumber = 1) ∧
    (∀ tr ∈ s.transactions, tr.transaction_number < r.transactionNumber) ∧
    maxTransactionNumber s'.transactions = r.transactionNumber ∧
    (∀ t2 now2 s2 r2, createTransaction s' t2 now2 = .ok (s2, r2) →
      r2.transactionNumber = r.transactionNumber + 1) := by
  obtain ⟨v, hv, hr, htr, _, _, _, _, _, _⟩ := createTransaction_ok h
  have hnum : r.transactionNumber = maxTransactionNumber s.transactions + 1 := by
    rw [hr]; rfl
  have hmax' : maxTransactionNumber s'.transactions = r.transactionNumber := by
    rw [htr, maxTransactionNumber_append_single]
    have hrow : getNextTransactionNumber s =
        maxTransactionNumber s.transactions + 1 := rfl
    simp only
    rw [hrow, hnum]
    omega
  refine ⟨hnum, ?_, ?_, hmax', ?_⟩
  · intro hempty
    rw [hnum, hempty]
    rfl
  · intro tr htm
    have := le_maxTransactionNumber htm
    omega
  · intro t2 now2 s2 r2 h2
    obtain ⟨v2, _, hr2, _⟩ := createTransaction_ok h2
    have : r2.transactionNumber = maxTransactionNumber s'.transactions + 1 := by
      rw [hr2]; rfl
    rw [this, hmax']

/-- Witness for C5: the first posting into the empty journal receives
number 1. -/
theorem C5_transaction_numbering_witness :
    exResult.transactionNumber = maxTransactionNumber exState.transactions + 1 ∧
    (exState.transactions = [] → exResult.transactionNumber = 1) ∧
    (∀ tr ∈ exState.transactions,
      tr.transaction_number < exResult.transactionNumber) ∧
    maxTransactionNumber exStateAfter.transactions =
      exResult.transactionNumber ∧
    (∀ t2 now2 s2 r2, createTransaction exStateAfter t2 now2 = .ok (s2, r2) →
      r2.transactionNumber = exResult.transactionNumber + 1) :=
  C5_transaction_numbering exCreate_eval

/-! ## C4: an unchanged full edit nets to zero balance change -/

/-- The financially relevant projection of a draft entry. -/
def projInput (e : EntryInput) : Nat × ℚ × Str :=
  (e.account_id.getD 0, e.amount.getD 0, e.entry_type)

/-- The financially relevant projection of a stored journal entry. -/
def projEntry (e : JournalEntry) : Nat × ℚ × Str :=
  (e.account_id, e.amount, e.entry_type)

theorem sum_filter_map {α : Type} (l : List α) (p : α → Bool) (f : α → ℚ) :
    ((l.filter p).map f).sum =
      (l.map (fun e => if p e then f e else 0)).sum := by
  induction l with
  | nil => simp
  | cons a rest ih =>
    by_cases hp : p a
    · simp [List.filter_cons, hp, ih]
    · simp [List.filter_cons, hp, ih]

theorem sum_map_eq_neg {α : Type} (l : List α) (f g : α → ℚ)
    (h : ∀ e ∈ l, f e = -(g e)) : (l.map f).sum = -((l.map g).sum) := by
  induction l with
  | nil => simp
  | cons a rest ih =>
    have ha := h a (List.mem_cons_self a rest)
    have hr : ∀ e ∈ rest, f e = -(g e) :=
      fun e he => h e (List.mem_cons_of_mem _ he)
    simp only [List.map_cons, List.sum_cons, ha, ih hr]
    ring

/-- C4: applying the full-edit operation with a draft whose entries are
identical (same multiset of `(account_id, amount, entry_type)`) to the
existing entries leaves every account's cached balance unchanged: the
reversal adjustments exactly cancel the reapplied adjustments. -/
theorem C4_identical_edit_preserves_balances {s : DBState} {tid : Nat}
    {u : UpdateData} {now : Str} {s' : DBState} {r : FullUpdateResult}
    {entries : List EntryInput}
    (hjwf : journalWF s)
    (hent : u.entries = some entries)
    (hsame : ((entries.map projInput : List (Nat × ℚ × Str)) :
        Multiset (Nat × ℚ × Str)) =
      ↑((s.journal.filter (fun e => e.transaction_id == tid)).map projEntry))
    (h : updateFullTransaction s tid u now = .ok (s', r)) :
    ∀ x, balAt s'.accounts x = balAt s.accounts x := by
  obtain ⟨entries2, v, hent2, hv, hold, hj, ht, _, _, hids, hnorm, hbal⟩ :=
    updateFullTransaction_ok h
  have hee : entries2 = entries := by
    rw [hent] at hent2
    exact (Option.some.injEq _ _).mp hent2.symm
  subst hee
  intro x
  rw [hbal x]
  set old := s.journal.filter (fun e => e.transaction_id == tid) with holddef
  set n := normalField s.accounts x with hn
  set g : Nat × ℚ × Str → ℚ :=
    fun p => if p.1 == x then balanceChangeFor n p.2.2 p.2.1 else 0 with hg
  have hins : insDeltaSum s.accounts entries2 x =
      ((old.map projEntry).map g).sum := by
    unfold insDeltaSum
    rw [← hn, sum_filter_map]
    have hfun : (fun e : EntryInput =>
        if (e.account_id.getD 0 == x) then
          balanceChangeFor n e.entry_type (e.amount.getD 0) else 0) =
        fun e => g (projInput e) := rfl
    rw [hfun, show (fun e => g (projInput e)) = g ∘ projInput from rfl,
      ← List.map_map]
    have hcoe :
        ((entries2.map projInput).map g).sum =
          (Multiset.map g ↑(entries2.map projInput)).sum := by
      rw [Multiset.map_coe, Multiset.sum_coe]
    rw [hcoe, hsame, Multiset.map_coe, Multiset.sum_coe]
  have htwf : ∀ e ∈ old, e.entry_type = DebitS ∨ e.entry_type = CreditS := by
    intro e he
    exact hjwf e (List.mem_of_mem_filter he)
  have hrev : revDeltaSum s.accounts old x =
      -(((old.map projEntry).map g).sum) := by
    unfold revDeltaSum
    rw [← hn, sum_filter_map, List.map_map]
    apply sum_map_eq_neg
    intro e he
    have hte := htwf e he
    by_cases hx : (e.account_id == x) = true
    · simp only [hx, if_true, hg, projEntry, Function.comp_apply]
      rw [balanceChangeFor_reverse n e.amount hte]
    · simp only [hx, hg, projEntry, Function.comp_apply,
        Bool.false_eq_true, if_false]
      simp [hx]
  have hzero : ∀ b : ℚ,
      b + revDeltaSum s.accounts old x + insDeltaSum s.accounts entries2 x
        = b := by
    intro b
    rw [hins, hrev]
    ring
  cases hb : balAt s.accounts x with
  | none => simp
  | some b => simp [hzero b]

/-- The edit payload of the C4 witness: same entries as `exDraft`. -/
def exUpdate : UpdateData :=
  { date := "02/01/2024".data, description := "Edited posting".data,
    reference := none, entries := some exDraft.entries }

/-- Witness clock value for the edit. -/
def exNow2 : Str := "2024-01-02 09:00:00".data

/-- The store after the identical full edit of transaction 1. -/
def exStateAfterEdit : DBState :=
  { accounts :=
      [{ accA with balance := 1000, updated_at := exNow2 },
       { accB with balance := 1000, updated_at := exNow2 }],
    transactions :=
      [{ id := 1, transaction_number := 1,
         transaction_date := "2024-01-02".data,
         description := "Edited posting".data, reference := some [],
         updated_at := exNow2 }],
    journal :=
      [{ id := 3, transaction_id := 1, account_id := 1, amount := 1000,
         entry_type := DebitS },
       { id := 4, transaction_id := 1, account_id := 2, amount := 1000,
         entry_type := CreditS }],
    nextTransactionId := 2, nextEntryId := 5 }

/-- The scalar result of the C4 witness edit. -/
def exEditResult : FullUpdateResult :=
  { transactionId := 1, transactionNumber := 1, totalDebits := 1000,
    totalCredits := 1000, entries_updated := 2, old_entries_reversed := 2 }

theorem exValidateEdit_eval :
    validateTransaction
      { date := exUpdate.date, description := exUpdate.description,
        reference := none, entries := exDraft.entries } =
      .ok ⟨"2024-01-02".data, 1000, 1000⟩ := by
  have h1 : trimStr exUpdate.date ≠ [] := by decide
  have h2 : convertToYYYYMMDD exUpdate.date = some ("2024-01-02".data) := by
    decide
  unfold validateTransaction
  simp only
  rw [if_neg h1, h2]
  simp only [exUpdate, exDraft, scanEntries, DebitS, CreditS]
  norm_num
  intro hcon
  exact absurd hcon (by decide)

theorem exUpdateFull_eval :
    updateFullTransaction exStateAfter 1 exUpdate exNow2 =
      .ok (exStateAfterEdit, exEditResult) := by
  unfold updateFullTransaction
  simp only [exUpdate]
  rw [show convertToYYYYMMDD ("02/01/2024".data) = some ("2024-01-02".data)
    from by decide]
  simp only
  rw [show validateTransaction
      { date := "02/01/2024".data, description := "Edited posting".data,
        reference := none, entries := exDraft.entries } =
      .ok ⟨"2024-01-02".data, 1000, 1000⟩ from exValidateEdit_eval]
  simp only [exStateAfter, exDraft, exStateAfterEdit, exEditResult,
    reverseEntries, insertJournalEntries, updateAccountBalanceInternal,
    applyDelta, balanceChangeFor, reverseEntryType, findAcc, accA, accB,
    DebitS, CreditS, sumAmounts]
  norm_num
  decide

/-- Witness for C4: re-posting transaction 1 with identical entries leaves
both cached balances at 1000. -/
theorem C4_identical_edit_preserves_balances_witness :
    balAt exStateAfterEdit.accounts 1 = balAt exStateAfter.accounts 1 ∧
    balAt exStateAfterEdit.accounts 2 = balAt exStateAfter.accounts 2 :=
  ⟨C4_identical_edit_preserves_balances
     (by unfold journalWF; decide) rfl (by decide) exUpdateFull_eval 1,
   C4_identical_edit_preserves_balances
     (by unfold journalWF; decide) rfl (by decide) exUpdateFull_eval 2⟩

/-! ## C2: imbalance rejection -/

/-- Total of the validator's `totalDebits` accumulator. -/
def sumDebits (entries : List EntryInput) : ℚ :=
  ((entries.filter (fun e => decide (e.entry_type = DebitS))).map
    (fun e => e.amount.getD 0)).sum

/-- Total of the validator's `totalCredits` accumulator (every non-Debit
entry lands here, exactly as the `else` branch of the loop does). -/
def sumCredits (entries : List EntryInput) : ℚ :=
  ((entries.filter (fun e => !(decide (e.entry_type = DebitS)))).map
    (fun e => e.amount.getD 0)).sum

theorem convertToYYYYMMDD_isSome {dateStr : Str} (h : dateStr ≠ []) :
    ∃ d, convertToYYYYMMDD dateStr = some d := by
  unfold convertToYYYYMMDD
  rw [if_neg h]
  by_cases hc : containsChar dateStr '/' ∧ (splitOnChar '/' dateStr).length = 3
  · rw [if_pos hc]; exact ⟨_, rfl⟩
  · rw [if_neg hc]; exact ⟨_, rfl⟩

theorem scanEntries_eval :
    ∀ (es : List EntryInput), entriesScanOk es →
    ∀ (i : Nat) (td tc : ℚ) (ids : List Nat),
    scanEntries es i (td, tc, ids) =
      .ok (td + sumDebits es, tc + sumCredits es,
           ids ++ es.map (fun e => e.account_id.getD 0)) := by
  intro es
  induction es with
  | nil =>
    intro _ i td tc ids
    simp [scanEntries, sumDebits, sumCredits]
  | cons e rest ih =>
    intro hok i td tc ids
    obtain ⟨hid, ⟨a, ham, hpos⟩, hty⟩ := hok e (List.mem_cons_self e rest)
    have hrest : entriesScanOk rest :=
      fun e2 he2 => hok e2 (List.mem_cons_of_mem _ he2)
    simp only [scanEntries]
    rw [if_neg hid, ham]
    simp only
    rw [if_neg (by linarith : ¬a ≤ 0), if_neg (not_not.mpr hty),
      ih hrest (i + 1)]
    by_cases hd : e.entry_type = DebitS
    · have hsd : sumDebits (e :: rest) = a + sumDebits rest := by
        simp [sumDebits, List.filter_cons, hd, ham]
      have hsc : sumCredits (e :: rest) = sumCredits rest := by
        simp [sumCredits, List.filter_cons, hd]
      rw [hsd, hsc]
      simp only [hd, if_true, List.map_cons, List.append_assoc,
        List.singleton_append, Except.ok.injEq, Prod.mk.injEq, and_true,
        true_and]
      ring
    · have hsd : sumDebits (e :: rest) = sumDebits rest := by
        simp [sumDebits, List.filter_cons, hd]
      have hsc : sumCredits (e :: rest) = a + sumCredits rest := by
        simp [sumCredits, List.filter_cons, hd, ham]
      rw [hsd, hsc]
      simp only [hd, if_false, List.map_cons, List.append_assoc,
        List.singleton_append, Except.ok.injEq, Prod.mk.injEq, and_true,
        true_and]
      ring

/-- When every entry-level check passes but the totals differ by strictly
more than 0.01, validation throws the imbalance error carrying both
computed totals. -/
theorem validateTransaction_imbalance {t : TxnDraft}
    (hdate : trimStr t.date ≠ [])
    (hdesc : trimStr t.description ≠ [])
    (hlen : t.description.length ≤ 200)
    (hcount : 2 ≤ t.entries.length)
    (hscan : entriesScanOk t.entries)
    (himb : 1 / 100 < |sumDebits t.entries - sumCredits t.entries|) :
    validateTransaction t =
      .error (.imbalance (sumDebits t.entries) (sumCredits t.entries)) := by
  unfold validateTransaction
  rw [if_neg hdate]
  have hne : t.date ≠ [] := by
    intro hc
    apply hdate
    rw [hc]
    rfl
  obtain ⟨d, hd⟩ := convertToYYYYMMDD_isSome hne
  rw [hd]
  simp only
  rw [if_neg hdesc, if_neg (by omega : ¬200 < t.description.length),
    if_neg (by omega : ¬t.entries.length < 2),
    scanEntries_eval t.entries hscan 0 0 0 []]
  simp only [zero_add, List.nil_append]
  rw [if_pos himb]

/-- C2 (amended): for every draft that passes the entry-level checks and
whose totals differ by strictly more than 0.01, `createTransaction` rejects
it with the imbalance error carrying both computed totals, before any
write (the `.error` outcome of the atomic unit commits nothing). -/
theorem C2_amended_imbalance_rejected (s : DBState) (t : TxnDraft) (now : Str)
    (hdate : trimStr t.date ≠ [])
    (hdesc : trimStr t.description ≠ [])
    (hlen : t.description.length ≤ 200)
    (hcount : 2 ≤ t.entries.length)
    (hscan : entriesScanOk t.entries)
    (himb : 1 / 100 < |sumDebits t.entries - sumCredits t.entries|) :
    createTransaction s t now =
      .error (.imbalance (sumDebits t.entries) (sumCredits t.entries)) := by
  unfold createTransaction
  rw [validateTransaction_imbalance hdate hdesc hlen hcount hscan himb]

/-- The C2 counterexample draft: debits 0.03, credits 0.02 — the totals
differ by exactly 0.01, which the claim says must be rejected. -/
def cx2Draft : TxnDraft :=
  { date := "05/01/2024".data, description := "Off by one cent".data,
    reference := none,
    entries := [{ account_id := some 1, amount := some (3 / 100),
                  entry_type := DebitS },
                { account_id := some 2, amount := some (1 / 50),
                  entry_type := CreditS }] }

/-- The store after the boundary-imbalanced draft is accepted. -/
def cx2StateAfter : DBState :=
  { accounts :=
      [{ accA with balance := 3 / 100, updated_at := exNow },
       { accB with balance := 1 / 50, updated_at := exNow }],
    transactions :=
      [{ id := 1, transaction_number := 1,
         transaction_date := "2024-01-05".data,
         description := "Off by one cent".data, reference := some [],
         updated_at := exNow }],
    journal :=
      [{ id := 1, transaction_id := 1, account_id := 1, amount := 3 / 100,
         entry_type := DebitS },
       { id := 2, transaction_id := 1, account_id := 2, amount := 1 / 50,
         entry_type := CreditS }],
    nextTransactionId := 2, nextEntryId := 3 }

/-- The scalar result of accepting the boundary-imbalanced draft. -/
def cx2Result : CreateResult :=
  { transactionId := 1, transactionNumber := 1, totalDebits := 3 / 100,
    totalCredits := 1 / 50, date_display := "05/01/2024".data }

theorem cx2Validate_eval :
    validateTransaction cx2Draft =
      .ok ⟨"2024-01-05".data, 3 / 100, 1 / 50⟩ := by
  have h1 : trimStr cx2Draft.date ≠ [] := by decide
  have h2 : convertToYYYYMMDD cx2Draft.date = some ("2024-01-05".data) := by
    decide
  unfold validateTransaction
  rw [if_neg h1, h2]
  simp only [cx2Draft, scanEntries, DebitS, CreditS]
  norm_num
  split_ifs with hA hB
  · exact absurd hA (by decide)
  · refine absurd hB ?_
    rw [abs_of_nonneg (by norm_num : (0 : ℚ) ≤ 1 / 100)]
    norm_num
  · rfl

/-- C2 counterexample: a draft whose total debits and credits differ by
exactly 0.01 — within the claim's "0.01 or more" — is accepted and fully
written, because the source rejects only differences strictly above 0.01. -/
theorem C2_counterexample :
    1 / 100 ≤ |sumDebits cx2Draft.entries - sumCredits cx2Draft.entries| ∧
    createTransaction exState cx2Draft exNow = .ok (cx2StateAfter, cx2Result) := by
  constructor
  · have h1 : sumDebits cx2Draft.entries = 3 / 100 := by
      norm_num [sumDebits, cx2Draft, DebitS, CreditS]
    have h2 : sumCredits cx2Draft.entries = 1 / 50 := by
      norm_num [sumCredits, cx2Draft, DebitS, CreditS]
    rw [h1, h2, show (3 : ℚ) / 100 - 1 / 50 = 1 / 100 by norm_num,
      abs_of_nonneg (by norm_num : (0 : ℚ) ≤ 1 / 100)]
  · unfold createTransaction
    rw [cx2Validate_eval]
    simp only [exState, cx2Draft, cx2StateAfter, cx2Result,
      insertJournalEntries, updateAccountBalanceInternal, applyDelta,
      balanceChangeFor, findAcc, getNextTransactionNumber,
      maxTransactionNumber, accA, accB, DebitS, CreditS]
    rw [show convertToDDMMYYYY ['2', '0', '2', '4', '-', '0', '1', '-', '0',
      '5'] = ['0', '5', '/', '0', '1', '/', '2', '0', '2', '4'] from by
      decide]
    norm_num
    intro hcon
    exact absurd hcon (by simp)

/-- Witness draft for the amended C2: debits 3, credits 1. -/
def c2wDraft : TxnDraft :=
  { date := "07/01/2024".data, description := "Unbalanced".data,
    reference := none,
    entries := [{ account_id := some 1, amount := some 3,
                  entry_type := DebitS },
                { account_id := some 2, amount := some 1,
                  entry_type := CreditS }] }

/-! ## C3: the account ledger -/

/-- The spec's opening balance: signed sum (by the claim's rule) of the
account's entries whose parent transaction is dated strictly before the
range. -/
def specOpeningSum (s : DBState) (accountId : Nat) (normalBalance : Str)
    (dbStartDate : Str) : ℚ :=
  ((s.journal.filter (fun e =>
      e.account_id == accountId &&
        match entryTransaction s e with
        | some t => strLtb t.transaction_date dbStartDate
        | none => false)).map (claimContribution normalBalance)).sum

theorem sqlSignedCase_eq_claim {n t : Str} (a : ℚ)
    (hn : n = DebitS ∨ n = CreditS) (ht : t = DebitS ∨ t = CreditS) :
    sqlSignedCase n t a = (if t = n then a else -a) := by
  have hdc : ¬(CreditS = DebitS) := by decide
  have hcd : ¬(DebitS = CreditS) := by decide
  rcases hn with hn | hn <;> rcases ht with ht | ht <;> subst hn <;> subst ht <;>
    simp [sqlSignedCase, hdc, hcd]

theorem openingBalanceQuery_eq_spec (s : DBState) (accountId : Nat)
    {normalBalance : Str} (dbStartDate : Str)
    (hn : normalBalance = DebitS ∨ normalBalance = CreditS)
    (hjwf : journalWF s) :
    openingBalanceQuery s accountId normalBalance dbStartDate =
      specOpeningSum s accountId normalBalance dbStartDate := by
  unfold openingBalanceQuery specOpeningSum
  congr 1
  apply List.map_congr_left
  intro e he
  have hte : e.entry_type = DebitS ∨ e.entry_type = CreditS :=
    hjwf e (List.mem_of_mem_filter he)
  rw [sqlSignedCase_eq_claim e.amount hn hte]
  rfl

/-- The ascending `(transaction_date, transaction id)` order on ledger
lines, as stated by the claim. -/
def lineKeyLE (p q : LedgerLine) : Prop :=
  strLtb p.date q.date = true ∨ (p.date = q.date ∧ p.transaction_id ≤ q.transaction_id)

theorem buildLedgerLines_map_key (n : Str) :
    ∀ (rb : ℚ) (rows : List (Transaction × JournalEntry)),
    (buildLedgerLines n rb rows).map (fun l => (l.date, l.transaction_id)) =
      rows.map (fun p => (p.1.transaction_date, p.1.id)) := by
  intro rb rows
  induction rows generalizing rb with
  | nil => rfl
  | cons p rest ih =>
    obtain ⟨t, e⟩ := p
    simp only [buildLedgerLines, List.map_cons, ih]

theorem buildLedgerLines_map_entry (n : Str) :
    ∀ (rb : ℚ) (rows : List (Transaction × JournalEntry)),
    (buildLedgerLines n rb rows).map
      (fun l => (l.transaction_id, l.entry_type, l.amount)) =
      rows.map (fun p => (p.1.id, p.2.entry_type, p.2.amount)) := by
  intro rb rows
  induction rows generalizing rb with
  | nil => rfl
  | cons p rest ih =>
    obtain ⟨t, e⟩ := p
    simp only [buildLedgerLines, List.map_cons, ih]

theorem buildLedgerLines_first (n : Str) (rb : ℚ)
    (rows : List (Transaction × JournalEntry)) :
    ∀ l, (buildLedgerLines n rb rows).head? = some l →
      l.running_balance = rb + l.balance_effect := by
  intro l hl
  cases rows with
  | nil => cases hl
  | cons p rest =>
    obtain ⟨t, e⟩ := p
    simp only [buildLedgerLines, List.head?_cons, Option.some.injEq] at hl
    subst hl
    rfl

theorem buildLedgerLines_chain (n : Str) :
    ∀ (rb : ℚ) (rows : List (Transaction × JournalEntry)),
    List.Chain' (fun p q =>
      q.running_balance = p.running_balance + q.balance_effect)
      (buildLedgerLines n rb rows) := by
  intro rb rows
  induction rows generalizing rb with
  | nil => exact List.chain'_nil
  | cons p rest ih =>
    obtain ⟨t, e⟩ := p
    simp only [buildLedgerLines]
    rw [List.chain'_cons']
    refine ⟨?_, ih _⟩
    intro b hb
    have := buildLedgerLines_first n
      (rb + balanceChangeFor n e.entry_type e.amount) rest b hb
    rw [this]

theorem ledgerClosing_spec (n : Str) :
    ∀ (rows : List (Transaction × JournalEntry)) (rb : ℚ),
      (buildLedgerLines n rb rows = [] → ledgerClosing n rb rows = rb) ∧
      (∀ l, (buildLedgerLines n rb rows).getLast? = some l →
        ledgerClosing n rb rows = l.running_balance) := by
  intro rows
  induction rows with
  | nil =>
    intro rb
    exact ⟨fun _ => rfl, fun l hl => by cases hl⟩
  | cons p rest ih =>
    intro rb
    obtain ⟨t, e⟩ := p
    constructor
    · intro hl
      simp [buildLedgerLines] at hl
    · intro l hl
      simp only [buildLedgerLines, ledgerClosing] at hl ⊢
      cases hrw : buildLedgerLines n
          (rb + balanceChangeFor n e.entry_type e.amount) rest with
      | nil =>
        rw [hrw] at hl
        simp only [List.getLast?_singleton, Option.some.injEq] at hl
        subst hl
        have := (ih (rb + balanceChangeFor n e.entry_type e.amount)).1 hrw
        rw [this]
      | cons b bs =>
        rw [hrw] at hl
        have hlast : (buildLedgerLines n
            (rb + balanceChangeFor n e.entry_type e.amount) rest).getLast? =
            some l := by
          rw [hrw, ← hl, List.getLast?_cons_cons]
        exact (ih (rb + balanceChangeFor n e.entry_type e.amount)).2 l hlast

/-- C3: for every active account and date range, the ledger's opening
balance is the signed sum of the account's entries dated strictly before
the range; the lines are ordered by `(transaction_date, transaction id)`
ascending and carry a running balance satisfying
`running[i] = running[i-1] + balance_effect[i]` with
`running[0] = openingBalance + balance_effect[0]`; the closing balance is
the last running balance (the opening balance when there are no lines); and
the lines are exactly the in-range join rows. -/
theorem C3_account_ledger {s : DBState} {accountId : Nat}
    {startDate endDate : Str} {r : LedgerResult}
    (hwf : accountsWF s) (hjwf : journalWF s)
    (h : getAccountLedger s accountId startDate endDate = .ok r) :
    ∃ dbStartDate dbEndDate,
      convertToYYYYMMDD startDate = some dbStartDate ∧
      convertToYYYYMMDD endDate = some dbEndDate ∧
      r.openingBalance =
        specOpeningSum s accountId r.account.normal_balance dbStartDate ∧
      List.Pairwise lineKeyLE r.transactions ∧
      (∀ l, r.transactions.head? = some l →
        l.running_balance = r.openingBalance + l.balance_effect) ∧
      List.Chain' (fun p q =>
        q.running_balance = p.running_balance + q.balance_effect)
        r.transactions ∧
      (r.transactions = [] → r.closingBalance = r.openingBalance) ∧
      (∀ l, r.transactions.getLast? = some l →
        r.closingBalance = l.running_balance) ∧
      (r.transactions.map
        (fun l => (l.transaction_id, l.entry_type, l.amount))).Perm
        ((ledgerRowsUnsorted s accountId dbStartDate dbEndDate).map
          (fun p => (p.1.id, p.2.entry_type, p.2.amount))) := by
  unfold getAccountLedger at h
  cases hcs : convertToYYYYMMDD startDate with
  | none => rw [hcs] at h; cases h
  | some dbStartDate =>
    cases hce : convertToYYYYMMDD endDate with
    | none => rw [hcs, hce] at h; cases h
    | some dbEndDate =>
      rw [hcs, hce] at h
      simp only at h
      cases hfind : s.accounts.find?
          (fun a => a.id == accountId && a.is_active) with
      | none => rw [hfind] at h; cases h
      | some account =>
        rw [hfind] at h
        simp only [Except.ok.injEq] at h
        subst h
        have haccmem : account ∈ s.accounts :=
          List.mem_of_find?_eq_some hfind
        have hn : account.normal_balance = DebitS ∨
            account.normal_balance = CreditS := hwf.1 account haccmem
        have hsorted := List.sorted_mergeSort ledgerRowLe_trans
          ledgerRowLe_total
          (ledgerRowsUnsorted s accountId dbStartDate dbEndDate)
        refine ⟨dbStartDate, dbEndDate, rfl, rfl, ?_, ?_, ?_, ?_, ?_, ?_, ?_⟩
        · exact openingBalanceQuery_eq_spec s accountId dbStartDate hn hjwf
        · have hkeys := buildLedgerLines_map_key account.normal_balance
            (openingBalanceQuery s accountId account.normal_balance
              dbStartDate)
            (ledgerRows s accountId dbStartDate dbEndDate)
          have hrows : List.Pairwise (fun a b => ledgerRowLe a b = true)
              (ledgerRows s accountId dbStartDate dbEndDate) := hsorted
          have hrk : List.Pairwise
              (fun a b : Str × Nat =>
                strLtb a.1 b.1 = true ∨ (a.1 = b.1 ∧ a.2 ≤ b.2))
              ((ledgerRows s accountId dbStartDate dbEndDate).map
                (fun p => (p.1.transaction_date, p.1.id))) := by
            rw [List.pairwise_map]
            refine hrows.imp ?_
            intro a b hab
            simp only [ledgerRowLe, Bool.or_eq_true, Bool.and_eq_true,
              decide_eq_true_eq] at hab
            rcases hab with hab | ⟨he, hi⟩
            · exact Or.inl hab
            · exact Or.inr ⟨he, hi⟩
          rw [← hkeys, List.pairwise_map] at hrk
          refine hrk.imp ?_
          intro a b hab
          exact hab
        · intro l hl
          exact buildLedgerLines_first _ _ _ l hl
        · exact buildLedgerLines_chain _ _ _
        · intro hempty
          simp only
          exact (ledgerClosing_spec account.normal_balance
            (ledgerRows s accountId dbStartDate dbEndDate) _).1 hempty
        · intro l hl
          exact (ledgerClosing_spec account.normal_balance
            (ledgerRows s accountId dbStartDate dbEndDate) _).2 l hl
        · have hmap := buildLedgerLines_map_entry account.normal_balance
            (openingBalanceQuery s accountId account.normal_balance
              dbStartDate)
            (ledgerRows s accountId dbStartDate dbEndDate)
          simp only
          rw [hmap]
          exact (List.mergeSort_perm
            (ledgerRowsUnsorted s accountId dbStartDate dbEndDate)
            ledgerRowLe).map _

/-- Witness store for the ledger: two postings to account 1, dated
2024-01-01 (1000 Debit) and 2024-02-15 (500 Debit). -/
def ledT1 : Transaction :=
  { id := 1, transaction_number := 1, transaction_date := "2024-01-01".data,
    description := "Initial investment".data, reference := some [],
    updated_at := [] }

/-- The February transaction of the ledger witness. -/
def ledT2 : Transaction :=
  { id := 2, transaction_number := 2, transaction_date := "2024-02-15".data,
    description := "Additional investment".data, reference := some [],
    updated_at := [] }

/-- The February debit entry of the ledger witness. -/
def ledE3 : JournalEntry :=
  { id := 3, transaction_id := 2, account_id := 1, amount := 500,
    entry_type := DebitS }

/-- The ledger witness store. -/
def ledState : DBState :=
  { accounts :=
      [{ accA with balance := 1500 }, { accB with balance := 1500 }],
    transactions := [ledT1, ledT2],
    journal :=
      [{ id := 1, transaction_id := 1, account_id := 1, amount := 1000,
         entry_type := DebitS },
       { id := 2, transaction_id := 1, account_id := 2, amount := 1000,
         entry_type := CreditS },
       ledE3,
       { id := 4, transaction_id := 2, account_id := 2, amount := 500,
         entry_type := CreditS }],
    nextTransactionId := 3, nextEntryId := 5 }

/-- The expected ledger response for account 1 over February 2024. -/
def ledResult : LedgerResult :=
  { account := { accA with balance := 1500 },
    openingBalance := 1000, closingBalance := 1500,
    transactions :=
      [{ transaction_id := 2, transaction_number := 2,
         date := "2024-02-15".data,
         description := "Additional investment".data, reference := [],
         entry_type := DebitS, amount := 500, balance_effect := 500,
         running_balance := 1500 }],
    summary :=
      { total_debits := 500, total_credits := 0, transaction_count := 1 } }

theorem exLedger_eval :
    getAccountLedger ledState 1 ("01/02/2024".data) ("28/02/2024".data) =
      .ok ledResult := by
  have hrows : ledgerRows ledState 1 ("2024-02-01".data) ("2024-02-28".data) =
      [(ledT2, ledE3)] := by
    unfold ledgerRows
    rw [show ledgerRowsUnsorted ledState 1 ("2024-02-01".data)
      ("2024-02-28".data) = [(ledT2, ledE3)] from by decide]
    simp
  have hopen : openingBalanceQuery ledState 1 DebitS ("2024-02-01".data) =
      1000 := by
    unfold openingBalanceQuery
    rw [show ledState.journal.filter (fun e =>
        e.account_id == 1 &&
          match entryTransaction ledState e with
          | some t => strLtb t.transaction_date ("2024-02-01".data)
          | none => false) =
      [{ id := 1, transaction_id := 1, account_id := 1, amount := 1000,
         entry_type := DebitS }] from by decide]
    norm_num [sqlSignedCase, DebitS]
  unfold getAccountLedger
  rw [show convertToYYYYMMDD ("01/02/2024".data) =
    some ("2024-02-01".data) from by decide]
  rw [show convertToYYYYMMDD ("28/02/2024".data) =
    some ("2024-02-28".data) from by decide]
  simp only
  rw [show ledState.accounts.find? (fun a => a.id == 1 && a.is_active) =
    some { accA with balance := 1500 } from by decide]
  simp only [show ({ accA with balance := 1500 } : Account).normal_balance =
    DebitS from rfl, hopen, hrows]
  simp only [buildLedgerLines, ledgerClosing, balanceChangeFor, ledT2, ledE3,
    ledResult, accA, DebitS, CreditS]
  norm_num
  have hopen2 : openingBalanceQuery ledState 1 ['D', 'e', 'b', 'i', 't']
      ['2', '0', '2', '4', '-', '0', '2', '-', '0', '1'] = 1000 := hopen
  rw [hopen2]
  norm_num

/-- Witness for C3 over the concrete February ledger of account 1. -/
theorem C3_account_ledger_witness :
    ∃ dbStartDate dbEndDate,
      convertToYYYYMMDD ("01/02/2024".data) = some dbStartDate ∧
      convertToYYYYMMDD ("28/02/2024".data) = some dbEndDate ∧
      ledResult.openingBalance =
        specOpeningSum ledState 1 ledResult.account.normal_balance
          dbStartDate ∧
      List.Pairwise lineKeyLE ledResult.transactions ∧
      (∀ l, ledResult.transactions.head? = some l →
        l.running_balance = ledResult.openingBalance + l.balance_effect) ∧
      List.Chain' (fun p q =>
        q.running_balance = p.running_balance + q.balance_effect)
        ledResult.transactions ∧
      (ledResult.transactions = [] →
        ledResult.closingBalance = ledResult.openingBalance) ∧
      (∀ l, ledResult.transactions.getLast? = some l →
        ledResult.closingBalance = l.running_balance) ∧
      (ledResult.transactions.map
        (fun l => (l.transaction_id, l.entry_type, l.amount))).Perm
        ((ledgerRowsUnsorted ledState 1 dbStartDate dbEndDate).map
          (fun p => (p.1.id, p.2.entry_type, p.2.amount))) :=
  C3_account_ledger ⟨by decide, by decide⟩
    (by unfold journalWF; decide) exLedger_eval

/-! ## C6: period reports recompute from the journal -/

/-- The spec's period balance: signed sum (by the claim's rule) over exactly
the account's entries whose parent transaction is dated inside the range. -/
def specPeriodSum (s : DBState) (a : Account) (dbStartDate dbEndDate : Str) :
    ℚ :=
  ((s.journal.filter (fun e =>
      e.account_id == a.id &&
        match entryTransaction s e with
        | some t => inRange dbStartDate dbEndDate t.transaction_date
        | none => false)).map (claimContribution a.normal_balance)).sum

theorem periodBalanceRow_eq_spec {s : DBState} {a : Account}
    {dbS dbE : Str} {pb : ℚ}
    (hno : noOrphanEntries s) (hjwf : journalWF s)
    (hn : a.normal_balance = DebitS ∨ a.normal_balance = CreditS)
    (hrow : periodBalanceRow s a dbS dbE = some pb) :
    pb = specPeriodSum s a dbS dbE := by
  unfold periodBalanceRow at hrow
  by_cases hempty : s.journal.filter (fun e => e.account_id == a.id) = []
  · rw [if_pos hempty] at hrow
    simp only [Option.some.injEq] at hrow
    subst hrow
    have hnone : s.journal.filter (fun e =>
        e.account_id == a.id &&
          match entryTransaction s e with
          | some t => inRange dbS dbE t.transaction_date
          | none => false) = [] := by
      rw [List.filter_eq_nil_iff] at hempty ⊢
      intro e he
      have := hempty e he
      simp only [Bool.and_eq_true, not_and]
      intro hacc
      exact absurd hacc this
    rw [specPeriodSum, hnone]
    rfl
  · rw [if_neg hempty] at hrow
    by_cases hkept : periodKeptEntries s a.id dbS dbE = []
    · rw [if_pos hkept] at hrow; cases hrow
    · rw [if_neg hkept] at hrow
      simp only [Option.some.injEq] at hrow
      subst hrow
      have hfilters : periodKeptEntries s a.id dbS dbE =
          s.journal.filter (fun e =>
            e.account_id == a.id &&
              match entryTransaction s e with
              | some t => inRange dbS dbE t.transaction_date
              | none => false) := by
        unfold periodKeptEntries
        rw [List.filter_filter]
        apply List.filter_congr
        intro e he
        have hsome := hno e he
        cases ht : entryTransaction s e with
        | none => rw [ht] at hsome; cases hsome
        | some t => simp [Bool.and_comm]
      rw [specPeriodSum, ← hfilters]
      congr 1
      apply List.map_congr_left
      intro e he
      have hte : e.entry_type = DebitS ∨ e.entry_type = CreditS :=
        hjwf e (List.mem_of_mem_filter (by
          rw [hfilters] at he
          exact he))
      rw [sqlSignedCase_eq_claim e.amount hn hte]
      rfl

theorem mem_periodReportRows {s : DBState} {types : List Str}
    {dbS dbE : Str} {p : Account × ℚ}
    (hp : p ∈ periodReportRows s types dbS dbE) :
    p.1 ∈ s.accounts ∧ periodBalanceRow s p.1 dbS dbE = some p.2 := by
  unfold periodReportRows at hp
  rw [List.mem_filterMap] at hp
  obtain ⟨a, ha, hfa⟩ := hp
  by_cases hc : (types.contains a.account_type && a.is_active) = true
  · rw [if_pos hc] at hfa
    rw [Option.map_eq_some'] at hfa
    obtain ⟨pb, hpb, hap⟩ := hfa
    subst hap
    exact ⟨ha, hpb⟩
  · rw [if_neg hc] at hfa; cases hfa

/-- C6: `getBalanceSheetForPeriod` and `getIncomeStatementForPeriod` ignore
the cached balance and compute each reported account's `period_balance` as
the signed sum over exactly those journal entries whose parent transaction
is dated within the (inclusive) range.  The hypotheses mirror the store
schema: the `CHECK` constraints and the foreign key that rules out orphaned
entries (undoing the outer join's NULL-date case). -/
theorem C6_period_reports {s : DBState} {startDate endDate dbS dbE : Str}
    (hwf : accountsWF s) (hjwf : journalWF s) (hno : noOrphanEntries s)
    (hcs : convertToYYYYMMDD startDate = some dbS)
    (hce : convertToYYYYMMDD endDate = some dbE) :
    (∀ bs, getBalanceSheetForPeriod s startDate endDate = .ok bs →
      ∀ p ∈ bs.assets ++ bs.liabilities ++ bs.capital,
        p.2 = specPeriodSum s p.1 dbS dbE) ∧
    (∀ ist, getIncomeStatementForPeriod s startDate endDate = .ok ist →
      ∀ p ∈ ist.revenue ++ ist.expenses,
        p.2 = specPeriodSum s p.1 dbS dbE) := by
  constructor
  · intro bs h p hp
    unfold getBalanceSheetForPeriod at h
    rw [hcs, hce] at h
    simp only [Except.ok.injEq] at h
    subst h
    simp only [List.mem_append, List.mem_filter] at hp
    have hrows : p ∈ periodReportRows s
        ["Asset".data, "Liability".data, "Capital".data] dbS dbE := by
      rcases hp with (hp | hp) | hp
      · exact hp.1
      · exact hp.1
      · exact hp.1
    obtain ⟨hmem, hpb⟩ := mem_periodReportRows hrows
    exact periodBalanceRow_eq_spec hno hjwf (hwf.1 p.1 hmem) hpb
  · intro ist h p hp
    unfold getIncomeStatementForPeriod at h
    rw [hcs, hce] at h
    simp only [Except.ok.injEq] at h
    subst h
    simp only [List.mem_append, List.mem_filter] at hp
    have hrows : p ∈ periodReportRows s ["Revenue".data, "Expense".data]
        dbS dbE := by
      rcases hp with hp | hp
      · exact hp.1
      · exact hp.1
    obtain ⟨hmem, hpb⟩ := mem_periodReportRows hrows
    exact periodBalanceRow_eq_spec hno hjwf (hwf.1 p.1 hmem) hpb

/-- Witness for C6 at the concrete two-posting store and the 2024 year
range. -/
theorem C6_period_reports_witness :
    (∀ bs, getBalanceSheetForPeriod ledState ("01/01/2024".data)
        ("31/12/2024".data) = .ok bs →
      ∀ p ∈ bs.assets ++ bs.liabilities ++ bs.capital,
        p.2 = specPeriodSum ledState p.1 ("2024-01-01".data)
          ("2024-12-31".data)) ∧
    (∀ ist, getIncomeStatementForPeriod ledState ("01/01/2024".data)
        ("31/12/2024".data) = .ok ist →
      ∀ p ∈ ist.revenue ++ ist.expenses,
        p.2 = specPeriodSum ledState p.1 ("2024-01-01".data)
          ("2024-12-31".data)) :=
  C6_period_reports ⟨by decide, by decide⟩ (by unfold journalWF; decide)
    (by unfold noOrphanEntries; decide) (by decide) (by decide)

/-- Witness for the amended C2 at a concretely imbalanced draft. -/
theorem C2_amended_imbalance_rejected_witness :
    createTransaction exState c2wDraft exNow =
      .error (.imbalance (sumDebits c2wDraft.entries)
        (sumCredits c2wDraft.entries)) :=
  C2_amended_imbalance_rejected exState c2wDraft exNow (by decide) (by decide)
    (by decide) (by decide)
    (by
      intro e he
      fin_cases he
      · exact ⟨by decide, ⟨3, rfl, by norm_num⟩, Or.inl rfl⟩
      · exact ⟨by decide, ⟨1, rfl, by norm_num⟩, Or.inr rfl⟩)
    (by norm_num [sumDebits, sumCredits, c2wDraft, DebitS, CreditS])

/-! ## C7: malformed dates -/

/-- A draft whose date is non-empty but in no day/month/year shape at all. -/
def c7Draft : TxnDraft :=
  { date := "nonsense".data, description := "Opening balance".data,
    reference := none, entries := exDraft.entries }

/-- The store after posting `c7Draft`: the malformed text lands verbatim in
the transaction row's `transaction_date`. -/
def c7StateAfter : DBState :=
  { accounts :=
      [{ accA with balance := 1000, updated_at := exNow },
       { accB with balance := 1000, updated_at := exNow }],
    transactions :=
      [{ id := 1, transaction_number := 1,
         transaction_date := "nonsense".data,
         description := "Opening balance".data, reference := some [],
         updated_at := exNow }],
    journal :=
      [{ id := 1, transaction_id := 1, account_id := 1, amount := 1000,
         entry_type := DebitS },
       { id := 2, transaction_id := 1, account_id := 2, amount := 1000,
         entry_type := CreditS }],
    nextTransactionId := 2, nextEntryId := 3 }

/-- The scalar result returned for `c7Draft`. -/
def c7Result : CreateResult :=
  { transactionId := 1, transactionNumber := 1, totalDebits := 1000,
    totalCredits := 1000, date_display := "nonsense".data }

/-- C7 (refuted): a non-empty, unparseable date string is NOT rejected.
`convertToYYYYMMDD` falls through to `return dateStr` for any non-empty
input without a three-part `/` shape, so the `Invalid date format` throw in
`validateTransaction` is dead code: validation succeeds on the draft dated
`"nonsense"` and `createTransaction` writes that text verbatim into the
stored transaction's `transaction_date`. -/
theorem C7_malformed_date_accepted :
    validateTransaction c7Draft =
      .ok ⟨"nonsense".data, 1000, 1000⟩ ∧
    createTransaction exState c7Draft exNow = .ok (c7StateAfter, c7Result) := by
  have h1 : trimStr c7Draft.date ≠ [] := by decide
  have h2 : convertToYYYYMMDD c7Draft.date = some ("nonsense".data) := by
    decide
  have h3 : trimStr c7Draft.description ≠ [] := by decide
  have hval : validateTransaction c7Draft =
      .ok ⟨"nonsense".data, 1000, 1000⟩ := by
    unfold validateTransaction
    rw [if_neg h1, h2]
    simp only [c7Draft, exDraft, scanEntries, DebitS, CreditS]
    norm_num
    intro hcon
    exact absurd hcon (by decide)
  refine ⟨hval, ?_⟩
  unfold createTransaction
  rw [hval]
  simp only [exState, c7Draft, exDraft, c7StateAfter, c7Result,
    insertJournalEntries, updateAccountBalanceInternal, applyDelta,
    balanceChangeFor, findAcc, getNextTransactionNumber, maxTransactionNumber,
    accA, accB, DebitS, CreditS, convertToDDMMYYYY]
  norm_num
  decide

/-! ## C8: basic (metadata-only) update frame -/

/-- C8: `updateTransaction` called with no `entries` array dispatches to the
basic edit, which leaves accounts (hence every cached balance), journal
entries and both id counters untouched, and rewrites the transactions table
so that only the matching row changes, and only in its `transaction_date`,
`description`, `reference` and `updated_at` fields; every other transaction
row is carried over unchanged. -/
theorem C8_basic_update_frame {s : DBState} {tid : Nat} {u : UpdateData}
    {now : Str} {s' : DBState}
    (hent : u.entries = none)
    (h : updateTransaction s tid u now = .ok s') :
    s'.accounts = s.accounts ∧ s'.journal = s.journal ∧
    s'.nextTransactionId = s.nextTransactionId ∧
    s'.nextEntryId = s.nextEntryId ∧
    (∃ sqlDate, convertToYYYYMMDD u.date = some sqlDate ∧
      s'.transactions = s.transactions.map (fun tr =>
        if tr.id = tid then
          { tr with transaction_date := sqlDate,
                    description := u.description,
                    reference := u.reference, updated_at := now }
        else tr)) ∧
    ∀ tr ∈ s.transactions, tr.id ≠ tid → tr ∈ s'.transactions := by
  unfold updateTransaction at h
  rw [hent] at h
  simp only at h
  obtain ⟨ha, hj, hnt, hne, sqlDate, hc, hmap⟩ := updateBasicTransaction_ok h
  refine ⟨ha, hj, hnt, hne, ⟨sqlDate, hc, hmap⟩, ?_⟩
  intro tr htr hne2
  rw [hmap]
  have hm := List.mem_map_of_mem (fun tr =>
      if tr.id = tid then
        { tr with transaction_date := sqlDate, description := u.description,
                  reference := u.reference, updated_at := now }
      else tr) htr
  simp only at hm
  rw [if_neg hne2] at hm
  exact hm

/-- A metadata-only update: no `entries` field. -/
def c8Update : UpdateData :=
  { date := "03/01/2024".data, description := "Corrected note".data,
    reference := some ("INV-1".data), entries := none }

/-- The ledger-witness store after the basic edit of transaction 1. -/
def c8StateAfter : DBState :=
  { ledState with transactions :=
      [{ ledT1 with transaction_date := "2024-01-03".data,
                    description := "Corrected note".data,
                    reference := some ("INV-1".data),
                    updated_at := exNow2 },
       ledT2] }

/-- Witness for C8 at a concrete metadata edit of the ledger store. -/
theorem C8_basic_update_frame_witness :
    c8StateAfter.accounts = ledState.accounts ∧
    c8StateAfter.journal = ledState.journal ∧
    c8StateAfter.nextTransactionId = ledState.nextTransactionId ∧
    c8StateAfter.nextEntryId = ledState.nextEntryId ∧
    (∃ sqlDate, convertToYYYYMMDD c8Update.date = some sqlDate ∧
      c8StateAfter.transactions = ledState.transactions.map (fun tr =>
        if tr.id = 1 then
          { tr with transaction_date := sqlDate,
                    description := c8Update.description,
                    reference := c8Update.reference, updated_at := exNow2 }
        else tr)) ∧
    ∀ tr ∈ ledState.transactions, tr.id ≠ 1 →
      tr ∈ c8StateAfter.transactions :=
  C8_basic_update_frame rfl (by decide)

/-! ## C9: the defensive no-entries branch is dead -/

/-- C9: the defensive `No journal entries provided` throw inside
`createTransaction`'s atomic unit is unreachable: validation runs first and
demands at least two entries, so the entries list is never empty there, and
no other error site of the unit carries that error.  Hence no call to
`createTransaction` — on any store, draft and clock — ever yields it. -/
theorem C9_no_journal_entries_unreachable (s : DBState) (t : TxnDraft)
    (now : Str) :
    resultIsNoJournalEntries (createTransaction s t now) = false := by
  unfold createTransaction
  cases hv : validateTransaction t with
  | error e =>
    have hne := validateTransaction_error_ne hv
    cases e <;> first | rfl | exact absurd rfl hne
  | ok v =>
    simp only
    have hlen := (validateTransaction_ok hv).2.1
    have hemp : t.entries ≠ [] := by
      intro hnil
      rw [hnil] at hlen
      exact absurd hlen (by decide)
    rw [if_neg hemp]
    set s1 : DBState :=
      { s with
        transactions := s.transactions ++
          [{ id := s.nextTransactionId,
             transaction_number := getNextTransactionNumber s,
             transaction_date := v.dbDate, description := t.description,
             reference := some (t.reference.getD []), updated_at := now }],
        nextTransactionId := s.nextTransactionId + 1 } with hs1
    cases hins : insertJournalEntries s1 s.nextTransactionId t.entries now with
    | error err =>
      have hne := insertJournalEntries_error_ne hins
      cases err <;> first | rfl | exact absurd rfl hne
    | ok s2 => rfl

/-! ## C10: getAccountById null semantics and balance coercion -/

theorem findRow_self {rows : List AccountRow} {id : Nat} {r : AccountRow}
    (hkey : (rows.map (·.id)).Nodup) (hr : r ∈ rows) (hid : r.id = id)
    (hact : r.is_active = true) :
    rows.find? (fun x => x.id == id && x.is_active) = some r := by
  induction rows with
  | nil => cases hr
  | cons b rest ih =>
    simp only [List.map_cons, List.nodup_cons] at hkey
    rcases List.mem_cons.mp hr with hb | hrest
    · subst hb
      rw [List.find?_cons_of_pos _ (by simp [hid, hact])]
    · have hne : ¬((fun x : AccountRow => x.id == id && x.is_active) b
          = true) := by
        simp only [Bool.and_eq_true, beq_iff_eq, not_and]
        intro hbid
        exfalso
        apply hkey.1
        rw [hbid, ← hid]
        exact List.mem_map_of_mem _ hrest
      rw [@List.find?_cons_of_neg AccountRow
        (fun x => x.id == id && x.is_active) b rest hne]
      exact ih hkey.2 hrest

/-- C10: under the accounts primary key, `getAccountById` returns `null`
(never throws) when every row carrying the requested id is soft-deleted —
in particular when no row carries it — and, for an active row with that id,
returns that row with `balance` coerced to a number,
`parseFloat(row.balance) || 0` collapsing an unparseable stored value to
`0`. -/
theorem C10_get_account_by_id {rows : List AccountRow} {id : Nat}
    (hkey : (rows.map (·.id)).Nodup) :
    ((∀ r ∈ rows, r.id = id → r.is_active = false) →
      getAccountById rows id = none) ∧
    (∀ r ∈ rows, r.id = id → r.is_active = true →
      getAccountById rows id =
        some { id := r.id, account_code := r.account_code,
               account_name := r.account_name,
               account_type := r.account_type,
               account_subtype := r.account_subtype,
               normal_balance := r.normal_balance,
               balance := r.balance.getD 0, is_active := r.is_active }) := by
  constructor
  · intro hall
    have hfind : rows.find? (fun x => x.id == id && x.is_active) = none := by
      rw [List.find?_eq_none]
      intro r hr hp
      simp only [Bool.and_eq_true, beq_iff_eq] at hp
      rw [hall r hr hp.1] at hp
      exact absurd hp.2 (by simp)
    unfold getAccountById
    rw [hfind]
  · intro r hr hid hact
    unfold getAccountById
    rw [findRow_self hkey hr hid hact]

/-- Raw rows for the C10 witness: an active Cash account and a soft-deleted
Capital account whose stored balance text does not parse. -/
def c10Rows : List AccountRow :=
  [{ id := 1, account_code := "1001".data, account_name := "Cash".data,
     account_type := "Asset".data, account_subtype := none,
     normal_balance := DebitS, balance := some 1500, is_active := true },
   { id := 2, account_code := "3001".data,
     account_name := "Owner Capital".data,
     account_type := "Capital".data, account_subtype := none,
     normal_balance := CreditS, balance := none, is_active := false }]

/-- Witness for C10: id 2 only matches a soft-deleted row, so the lookup
yields `none`; id 1 matches the active Cash row, returned with its balance
coerced. -/
theorem C10_get_account_by_id_witness :
    getAccountById c10Rows 2 = none ∧
    getAccountById c10Rows 1 =
      some { id := 1, account_code := "1001".data,
             account_name := "Cash".data, account_type := "Asset".data,
             account_subtype := none, normal_balance := DebitS,
             balance := 1500, is_active := true } :=
  ⟨(C10_get_account_by_id (by decide)).1 (by decide),
   (C10_get_account_by_id (by decide)).2
     { id := 1, account_code := "1001".data, account_name := "Cash".data,
       account_type := "Asset".data, account_subtype := none,
       normal_balance := DebitS, balance := some 1500, is_active := true }
     (by decide) rfl rfl⟩

end Accounting
